import Mathlib

/-!
Verification of the JeevanQR self-contained token codec and the services
built on it (registration, resolution, accident log, one-time photo view),
shallowly embedded from `backend/server.js` and the database module.

Modelling conventions:
* JavaScript values reachable in this code are modelled by `Json`; the JS
  value `undefined` is modelled by `none` in `JsVal := Option Json`.
* A caught exception (the `try/catch` in `decodeUserToken`) and an uncaught
  route fault are modelled by `Option`/explicit `fault` constructors.
* `Date.now()` readings are passed in explicitly as `Nat` millisecond
  arguments.
* Buffer base64/base64url, UTF-8 and `JSON.parse`/`JSON.stringify` are
  implemented concretely below.  JSON numerals are modelled as integers
  (the codec itself only ever emits integer numerals); `new Date(t)` is
  modelled on integer epoch-milliseconds in `[0, year-10000)`, the range
  exercised by every token the system itself creates.
-/

set_option maxRecDepth 8192

namespace JQR

/-- JSON values, the dynamic-value domain of the embedded JavaScript. -/
inductive Json where
  | null
  | bool (b : Bool)
  | num (n : Int)
  | str (s : String)
  | arr (xs : List Json)
  | obj (fs : List (String × Json))

/-- A JavaScript expression value: either `undefined` (`none`) or a JSON value. -/
abbrev JsVal := Option Json

/-- JavaScript truthiness of a value. -/
def truthy : JsVal → Bool
  | none => false
  | some .null => false
  | some (.bool b) => b
  | some (.num n) => n != 0
  | some (.str s) => s != ""
  | some (.arr _) => true
  | some (.obj _) => true

/-- Property lookup in an object field list; later fields shadow earlier ones,
as in a JavaScript object built by `JSON.parse`. -/
def objGetLast (fs : List (String × Json)) (k : String) : JsVal :=
  match fs with
  | [] => none
  | (k', v) :: rest =>
    match objGetLast rest k with
    | some w => some w
    | none => if k = k' then some v else none

/-- JavaScript property access `j[k]`: throws (`none`) on `null`, yields
`undefined` on primitives, looks up the field on objects. -/
def jsMember (j : Json) (k : String) : Option JsVal :=
  match j with
  | .null => none
  | .obj fs => some (objGetLast fs k)
  | _ => some none

/-- The character `{`. -/
def lbrace : Char := Char.ofNat 123

/-- The character `}`. -/
def rbrace : Char := Char.ofNat 125

/-! ## Base64 (standard and URL-safe), as used by Node `Buffer`. -/

/-- The URL-safe base64 alphabet. -/
def urlAlphabet : List Char :=
  "ABCDEFGHIJKLMNOPQRSTUVWXYZabcdefghijklmnopqrstuvwxyz0123456789-_".data

/-- The standard base64 alphabet. -/
def stdAlphabet : List Char :=
  "ABCDEFGHIJKLMNOPQRSTUVWXYZabcdefghijklmnopqrstuvwxyz0123456789+/".data

/-- Split a byte list into 6-bit groups (big-endian base64 grouping). -/
def b64Groups : List Nat → List Nat
  | b1 :: b2 :: b3 :: rest =>
    (b1 / 4) :: ((b1 % 4) * 16 + b2 / 16) :: ((b2 % 16) * 4 + b3 / 64) :: (b3 % 64) :: b64Groups rest
  | [b1, b2] => [b1 / 4, (b1 % 4) * 16 + b2 / 16, (b2 % 16) * 4]
  | [b1] => [b1 / 4, (b1 % 4) * 16]
  | [] => []

/-- Reassemble bytes from 6-bit groups, dropping a trailing lone group
(the forgiving decode Node's `Buffer.from(·, 'base64url')` performs). -/
def b64Regroup : List Nat → List Nat
  | v1 :: v2 :: v3 :: v4 :: rest =>
    (v1 * 4 + v2 / 16) :: ((v2 % 16) * 16 + v3 / 4) :: ((v3 % 4) * 64 + v4) :: b64Regroup rest
  | [v1, v2] => [v1 * 4 + v2 / 16]
  | [v1, v2, v3] => [v1 * 4 + v2 / 16, (v2 % 16) * 16 + v3 / 4]
  | _ => []

/-- `Buffer.toString('base64url')`: URL-safe alphabet, no padding. -/
def b64UrlOfBytes (bs : List Nat) : String :=
  String.mk ((b64Groups bs).map fun v => urlAlphabet.getD v 'A')

/-- Padding characters standard base64 appends for a byte count. -/
def b64PadChars (n : Nat) : List Char :=
  match n % 3 with
  | 0 => []
  | 1 => ['=', '=']
  | _ => ['=']

/-- `Buffer.toString('base64')`: standard alphabet with `=` padding. -/
def b64StdOfBytes (bs : List Nat) : String :=
  String.mk ((b64Groups bs).map (fun v => stdAlphabet.getD v 'A') ++ b64PadChars bs.length)

/-- Value of a base64 character; both alphabets are accepted, anything
else (including `=`) is skipped by Node's forgiving decoder. -/
def b64CharVal (c : Char) : Option Nat :=
  if 'A' ≤ c ∧ c ≤ 'Z' then some (c.toNat - 65)
  else if 'a' ≤ c ∧ c ≤ 'z' then some (c.toNat - 71)
  else if '0' ≤ c ∧ c ≤ '9' then some (c.toNat + 4)
  else if c = '+' ∨ c = '-' then some 62
  else if c = '/' ∨ c = '_' then some 63
  else none

/-- `Buffer.from(s, 'base64url')`: forgiving base64 decode to bytes. -/
def b64DecodeBytes (cs : List Char) : List Nat :=
  b64Regroup (cs.filterMap b64CharVal)

/-! ## UTF-8 encoding and (lossy, WHATWG-style) decoding. -/

/-- UTF-8 encoding of one Unicode scalar value. -/
def utf8EncodeChar (c : Char) : List Nat :=
  let v := c.toNat
  if v < 128 then [v]
  else if v < 2048 then [192 + v / 64, 128 + v % 64]
  else if v < 65536 then [224 + v / 4096, 128 + v / 64 % 64, 128 + v % 64]
  else [240 + v / 262144, 128 + v / 4096 % 64, 128 + v / 64 % 64, 128 + v % 64]

/-- UTF-8 encoding of a character list. -/
def utf8Encode : List Char → List Nat
  | [] => []
  | c :: cs => utf8EncodeChar c ++ utf8Encode cs

/-- The replacement character U+FFFD emitted for invalid byte sequences. -/
def fffd : Char := Char.ofNat 0xFFFD

/-- State of the WHATWG UTF-8 decoder: at a boundary, or inside a sequence
expecting `needed` more continuation bytes in `[lo, hi]` for the first one. -/
inductive Utf8State where
  | start
  | cont (needed acc lo hi : Nat)

/-- Handle one byte in the boundary state: emit an ASCII char or U+FFFD,
or enter a continuation state. -/
def utf8Lead (b : Nat) : Option Char × Utf8State :=
  if b < 128 then (some (Char.ofNat b), .start)
  else if 194 ≤ b ∧ b ≤ 223 then (none, .cont 1 (b - 192) 128 191)
  else if 224 ≤ b ∧ b ≤ 239 then
    (none, .cont 2 (b - 224) (if b = 224 then 160 else 128) (if b = 237 then 159 else 191))
  else if 240 ≤ b ∧ b ≤ 244 then
    (none, .cont 3 (b - 240) (if b = 240 then 144 else 128) (if b = 244 then 143 else 191))
  else (some fffd, .start)

/-- Run the WHATWG UTF-8 decoder; invalid continuation bytes emit U+FFFD and
are reprocessed as lead bytes, a truncated final sequence emits one U+FFFD. -/
def utf8Run : Utf8State → List Nat → List Char
  | .start, [] => []
  | .cont _ _ _ _, [] => [fffd]
  | .start, b :: rest =>
    match utf8Lead b with
    | (some c, st) => c :: utf8Run st rest
    | (none, st) => utf8Run st rest
  | .cont needed acc lo hi, b :: rest =>
    if lo ≤ b ∧ b ≤ hi then
      match needed with
      | 1 => Char.ofNat (acc * 64 + (b - 128)) :: utf8Run .start rest
      | _ => utf8Run (.cont (needed - 1) (acc * 64 + (b - 128)) 128 191) rest
    else
      fffd :: (match utf8Lead b with
        | (some c, st) => c :: utf8Run st rest
        | (none, st) => utf8Run st rest)

/-- `Buffer.toString('utf8')`: lossy UTF-8 decode. -/
def utf8DecodeBytes (bs : List Nat) : List Char :=
  utf8Run .start bs

/-! ## Decimal numerals and `Date.prototype.toISOString`. -/

/-- The decimal digit character for `n < 10`. -/
def digitChar (n : Nat) : Char := Char.ofNat (48 + n)

/-- Fuel-driven decimal numeral writer (most significant digit first). -/
def natCharsF : Nat → Nat → List Char
  | 0, _ => []
  | f + 1, n => if n < 10 then [digitChar n] else natCharsF f (n / 10) ++ [digitChar (n % 10)]

/-- Decimal numeral of a natural number. -/
def natChars (n : Nat) : List Char := natCharsF (n + 1) n

/-- Decimal numeral of an integer, as `Number.prototype.toString` writes it. -/
def intChars (i : Int) : List Char :=
  if i < 0 then '-' :: natChars (-i).toNat else natChars i.toNat

/-- Zero-pad to two digits. -/
def pad2 (n : Nat) : List Char := if n < 10 then '0' :: natChars n else natChars n

/-- Zero-pad to three digits. -/
def pad3 (n : Nat) : List Char :=
  if n < 10 then '0' :: '0' :: natChars n
  else if n < 100 then '0' :: natChars n
  else natChars n

/-- Zero-pad to four digits. -/
def pad4 (n : Nat) : List Char :=
  if n < 10 then '0' :: '0' :: '0' :: natChars n
  else if n < 100 then '0' :: '0' :: natChars n
  else if n < 1000 then '0' :: natChars n
  else natChars n

/-- Proleptic-Gregorian civil date (year, month, day) of a day count from
1970-01-01, via the standard era-based algorithm. -/
def civilOfDays (days : Nat) : Nat × Nat × Nat :=
  let z := days + 719468
  let era := z / 146097
  let doe := z % 146097
  let yoe := (doe - doe / 1460 + doe / 36524 - doe / 146096) / 365
  let y := yoe + era * 400
  let doy := doe - (365 * yoe + yoe / 4 - yoe / 100)
  let mp := (5 * doy + 2) / 153
  let d := doy - (153 * mp + 2) / 5 + 1
  let m := if mp < 10 then mp + 3 else mp - 9
  (if m ≤ 2 then y + 1 else y, m, d)

/-- `new Date(t).toISOString()` for nonnegative epoch-milliseconds with a
four-digit year. -/
def isoOfMillis (t : Nat) : String :=
  let (y, mo, d) := civilOfDays (t / 86400000)
  String.mk (pad4 y ++ '-' :: pad2 mo ++ '-' :: pad2 d ++ 'T' :: pad2 (t / 3600000 % 24)
    ++ ':' :: pad2 (t / 60000 % 60) ++ ':' :: pad2 (t / 1000 % 60) ++ '.' :: pad3 (t % 1000) ++ ['Z'])

/-- First epoch-millisecond of year 10000, the end of the range on which
`isoOfMillis` models `toISOString` (beyond it JS switches to the expanded
`+YYYYYY` year form, which no token produced by this system reaches). -/
def isoModelMax : Nat := 253402300800000

/-! ## `JSON.stringify`. -/

/-- The lowercase hexadecimal digit character for `n < 16`. -/
def hexChar (n : Nat) : Char := if n < 10 then digitChar n else Char.ofNat (87 + n)

/-- `JSON.stringify` escaping of one string character. -/
def escChar (c : Char) : List Char :=
  if c = '"' then ['\\', '"']
  else if c = '\\' then ['\\', '\\']
  else if c = Char.ofNat 8 then ['\\', 'b']
  else if c = Char.ofNat 9 then ['\\', 't']
  else if c = Char.ofNat 10 then ['\\', 'n']
  else if c = Char.ofNat 12 then ['\\', 'f']
  else if c = Char.ofNat 13 then ['\\', 'r']
  else if c.toNat < 32 then ['\\', 'u', '0', '0', hexChar (c.toNat / 16), hexChar (c.toNat % 16)]
  else [c]

/-- Escape a character list. -/
def escList : List Char → List Char
  | [] => []
  | c :: cs => escChar c ++ escList cs

/-- A JSON string literal. -/
def strLit (s : String) : List Char := '"' :: escList s.data ++ ['"']

/-- `JSON.stringify` (no spacing), fuelled by nesting depth; the codec only
ever serialises the fixed-depth profile object, with fuel to spare. -/
def stringifyF : Nat → Json → List Char
  | 0, _ => []
  | _ + 1, .null => ['n', 'u', 'l', 'l']
  | _ + 1, .bool b => if b then ['t', 'r', 'u', 'e'] else ['f', 'a', 'l', 's', 'e']
  | _ + 1, .num n => intChars n
  | _ + 1, .str s => strLit s
  | f + 1, .arr xs => '[' :: List.intercalate [','] (xs.map (stringifyF f)) ++ [']']
  | f + 1, .obj fs =>
    lbrace :: List.intercalate [','] (fs.map fun p => strLit p.1 ++ ':' :: stringifyF f p.2) ++ [rbrace]

/-! ## `JSON.parse`. -/

/-- Skip JSON whitespace. -/
def skipWs : List Char → List Char
  | c :: cs =>
    if c = ' ' ∨ c = Char.ofNat 9 ∨ c = Char.ofNat 10 ∨ c = Char.ofNat 13 then skipWs cs
    else c :: cs
  | [] => []

/-- Value of a hexadecimal digit character. -/
def hexVal (c : Char) : Option Nat :=
  if '0' ≤ c ∧ c ≤ '9' then some (c.toNat - 48)
  else if 'a' ≤ c ∧ c ≤ 'f' then some (c.toNat - 87)
  else if 'A' ≤ c ∧ c ≤ 'F' then some (c.toNat - 55)
  else none

/-- Prepend a character to a string-body parse result. -/
def consStr (x : Char) (r : Option (List Char × List Char)) : Option (List Char × List Char) :=
  r.map fun p => (x :: p.1, p.2)

/-- The scalar a `\uXXXX` escape denotes; surrogate code units are modelled
as the replacement character (full surrogate-pair recombination is not
modelled: the codec never emits surrogate escapes). -/
def uEscChar (v : Nat) : Char :=
  if 55296 ≤ v ∧ v < 57344 then fffd else Char.ofNat v

/-- Parse the body of a JSON string literal after the opening quote, up to and
including the closing quote. -/
def parseStrBody : List Char → Option (List Char × List Char)
  | [] => none
  | c :: cs =>
    if c = '"' then some ([], cs)
    else if c = '\\' then
      match cs with
      | e :: cs2 =>
        if e = '"' ∨ e = '/' then consStr e (parseStrBody cs2)
        else if e = '\\' then consStr '\\' (parseStrBody cs2)
        else if e = 'b' then consStr (Char.ofNat 8) (parseStrBody cs2)
        else if e = 't' then consStr (Char.ofNat 9) (parseStrBody cs2)
        else if e = 'n' then consStr (Char.ofNat 10) (parseStrBody cs2)
        else if e = 'f' then consStr (Char.ofNat 12) (parseStrBody cs2)
        else if e = 'r' then consStr (Char.ofNat 13) (parseStrBody cs2)
        else if e = 'u' then
          match cs2 with
          | h1 :: h2 :: h3 :: h4 :: cs3 =>
            match hexVal h1, hexVal h2, hexVal h3, hexVal h4 with
            | some a, some b, some c3, some d =>
              consStr (uEscChar (((a * 16 + b) * 16 + c3) * 16 + d)) (parseStrBody cs3)
            | _, _, _, _ => none
          | _ => none
        else none
      | [] => none
    else if c.toNat < 32 then none
    else consStr c (parseStrBody cs)

/-- Greedily parse decimal digits onto an accumulator. -/
def parseDigits : Nat → List Char → Nat × List Char
  | acc, [] => (acc, [])
  | acc, c :: cs =>
    if c.isDigit then parseDigits (acc * 10 + (c.toNat - 48)) cs else (acc, c :: cs)

/-- Whether the characters after an integer numeral are acceptable to this
integer-only model (no fraction or exponent continuation). -/
def numberTailOK : List Char → Bool
  | c :: _ => !(c = '.' ∨ c = 'e' ∨ c = 'E')
  | [] => true

/-- Parse a JSON natural numeral (no leading zeros). -/
def parseNumberNat (cs : List Char) : Option (Nat × List Char) :=
  match cs with
  | c :: rest =>
    if c = '0' then
      match rest with
      | c2 :: _ =>
        if c2.isDigit ∨ c2 = '.' ∨ c2 = 'e' ∨ c2 = 'E' then none else some (0, rest)
      | [] => some (0, [])
    else if c.isDigit then
      let (n, r) := parseDigits (c.toNat - 48) rest
      if numberTailOK r then some (n, r) else none
    else none
  | [] => none

/-- Parse a JSON integer numeral with optional sign. -/
def parseNumber (cs : List Char) : Option (Int × List Char) :=
  match cs with
  | c :: rest =>
    if c = '-' then
      match parseNumberNat rest with
      | some (n, r) => some (-(n : Int), r)
      | none => none
    else
      match parseNumberNat (c :: rest) with
      | some (n, r) => some ((n : Int), r)
      | none => none
  | [] => none

/-- What the recursive-descent JSON parser is currently reading. -/
inductive PMode where
  | val
  | elems
  | members

/-- Intermediate result of the JSON parser. -/
inductive PRes where
  | v (j : Json)
  | vs (xs : List Json)
  | ms (fs : List (String × Json))

/-- Fuelled recursive-descent JSON parser: a value, the element list of a
non-empty array, or the member list of a non-empty object. -/
def parseF : Nat → PMode → List Char → Option (PRes × List Char)
  | 0, _, _ => none
  | f + 1, .val, cs =>
    match skipWs cs with
    | [] => none
    | c :: cs1 =>
      if c = lbrace then
        match skipWs cs1 with
        | c2 :: cs2 =>
          if c2 = rbrace then some (.v (.obj []), cs2)
          else
            match parseF f .members (c2 :: cs2) with
            | some (.ms fs, rest) => some (.v (.obj fs), rest)
            | _ => none
        | [] => none
      else if c = '[' then
        match skipWs cs1 with
        | c2 :: cs2 =>
          if c2 = ']' then some (.v (.arr []), cs2)
          else
            match parseF f .elems (c2 :: cs2) with
            | some (.vs xs, rest) => some (.v (.arr xs), rest)
            | _ => none
        | [] => none
      else if c = '"' then
        match parseStrBody cs1 with
        | some (l, rest) => some (.v (.str (String.mk l)), rest)
        | none => none
      else if c = 't' then
        match cs1 with
        | 'r' :: 'u' :: 'e' :: rest => some (.v (.bool true), rest)
        | _ => none
      else if c = 'f' then
        match cs1 with
        | 'a' :: 'l' :: 's' :: 'e' :: rest => some (.v (.bool false), rest)
        | _ => none
      else if c = 'n' then
        match cs1 with
        | 'u' :: 'l' :: 'l' :: rest => some (.v .null, rest)
        | _ => none
      else
        match parseNumber (c :: cs1) with
        | some (i, rest) => some (.v (.num i), rest)
        | none => none
  | f + 1, .elems, cs =>
    match parseF f .val cs with
    | some (.v j, rest) =>
      match skipWs rest with
      | c :: rest2 =>
        if c = ',' then
          match parseF f .elems rest2 with
          | some (.vs xs, rest3) => some (.vs (j :: xs), rest3)
          | _ => none
        else if c = ']' then some (.vs [j], rest2)
        else none
      | [] => none
    | _ => none
  | f + 1, .members, cs =>
    match skipWs cs with
    | c :: cs1 =>
      if c = '"' then
        match parseStrBody cs1 with
        | some (k, rest) =>
          match skipWs rest with
          | c1 :: rest2 =>
            if c1 = ':' then
              match parseF f .val rest2 with
              | some (.v j, rest3) =>
                match skipWs rest3 with
                | c2 :: rest4 =>
                  if c2 = ',' then
                    match parseF f .members rest4 with
                    | some (.ms fs, rest5) => some (.ms ((String.mk k, j) :: fs), rest5)
                    | _ => none
                  else if c2 = rbrace then some (.ms [(String.mk k, j)], rest4)
                  else none
                | [] => none
              | _ => none
            else none
          | [] => none
        | none => none
      else none
    | [] => none

/-- `JSON.parse`: a single value with only whitespace around it. -/
def jsonParse (s : String) : Option Json :=
  match parseF (s.data.length + 1) .val s.data with
  | some (.v j, rest) => if skipWs rest = [] then some j else none
  | _ => none

/-! ## The profile data model and the token codec (`server.js`). -/

/-- An emergency contact as stored in a profile. -/
structure Contact where
  name : String
  phone : String
deriving DecidableEq

/-- A government helpline as stored in a profile. -/
structure Helpline where
  name : String
  number : String
deriving DecidableEq

/-- The canonical user profile record built by registration. -/
structure Profile where
  fullName : String
  bloodGroup : String
  emergencyContacts : List Contact
  governmentHelplines : List Helpline
  createdAt : String
deriving DecidableEq

/-- The compact JSON object `encodeUserToken` serialises, with `t` drawn from
the encoder's own `Date.now()` reading. -/
def userJson (now : Nat) (u : Profile) : Json :=
  .obj [("n", .str u.fullName), ("b", .str u.bloodGroup),
        ("e", .arr (u.emergencyContacts.map fun c => .obj [("n", .str c.name), ("p", .str c.phone)])),
        ("g", .arr (u.governmentHelplines.map fun h => .obj [("n", .str h.name), ("p", .str h.number)])),
        ("t", .num now)]

/-- `encodeUserToken`: URL-safe unpadded base64 of the UTF-8 JSON of the
compact profile object (`stringifyF` is given fuel 4, one more than the
fixed nesting depth of `userJson`). -/
def encodeUserToken (now : Nat) (u : Profile) : String :=
  b64UrlOfBytes (utf8Encode (stringifyF 4 (userJson now u)))

/-- A decoded emergency contact; fields may be `undefined` when the token's
JSON lacks them. -/
structure DecContact where
  name : JsVal
  phone : JsVal

/-- A decoded government helpline. -/
structure DecHelpline where
  name : JsVal
  number : JsVal

/-- What `decodeUserToken` returns on success: the reconstructed profile
object, whose scalar fields are whatever the token's JSON held. -/
structure DecodedUser where
  fullName : JsVal
  bloodGroup : JsVal
  emergencyContacts : List DecContact
  governmentHelplines : List DecHelpline
  createdAt : String

/-- `new Date(t).toISOString()` on a decoded `t`: numbers in the modelled
range succeed, `null`/booleans coerce to 0/1, everything else (including
`undefined`, whose `Date` is invalid) throws. -/
def jsDateISO (t : JsVal) : Option String :=
  match t with
  | some .null => some (isoOfMillis 0)
  | some (.bool b) => some (isoOfMillis (if b then 1 else 0))
  | some (.num n) => if 0 ≤ n ∧ n < (isoModelMax : Int) then some (isoOfMillis n.toNat) else none
  | _ => none

/-- `data.e.map(c => ({name: c.n, phone: c.p}))`: throws unless `e` is an
array; a `null` element throws, a primitive element yields undefined fields. -/
def decContactList (e : JsVal) : Option (List DecContact) :=
  match e with
  | some (.arr xs) => decContactElems xs
  | _ => none
where
  /-- Evaluate the arrow body on each element. -/
  decContactElems : List Json → Option (List DecContact)
  | [] => some []
  | x :: xs =>
    match x with
    | .null => none
    | .obj fs =>
      match decContactElems xs with
      | some rest => some (⟨objGetLast fs "n", objGetLast fs "p"⟩ :: rest)
      | none => none
    | _ =>
      match decContactElems xs with
      | some rest => some (⟨none, none⟩ :: rest)
      | none => none

/-- `data.g.map(h => ({name: h.n, number: h.p}))`. -/
def decHelplineList (g : JsVal) : Option (List DecHelpline) :=
  match g with
  | some (.arr xs) => decHelplineElems xs
  | _ => none
where
  /-- Evaluate the arrow body on each element. -/
  decHelplineElems : List Json → Option (List DecHelpline)
  | [] => some []
  | x :: xs =>
    match x with
    | .null => none
    | .obj fs =>
      match decHelplineElems xs with
      | some rest => some (⟨objGetLast fs "n", objGetLast fs "p"⟩ :: rest)
      | none => none
    | _ =>
      match decHelplineElems xs with
      | some rest => some (⟨none, none⟩ :: rest)
      | none => none

/-- Tail of the decoder's object literal: `createdAt: new Date(decoded.t)`. -/
def decodeT (n b : JsVal) (cs : List DecContact) (hs : List DecHelpline) (t : JsVal) :
    Option DecodedUser :=
  match jsDateISO t with
  | none => none
  | some iso => some ⟨n, b, cs, hs, iso⟩

/-- Tail of the decoder from `decoded.g.map(...)` on. -/
def decodeG (j : Json) (n b : JsVal) (cs : List DecContact) (g : JsVal) :
    Option DecodedUser :=
  match decHelplineList g with
  | none => none
  | some hs =>
    match jsMember j "t" with
    | none => none
    | some t => decodeT n b cs hs t

/-- Tail of the decoder from `decoded.e.map(...)` on. -/
def decodeE (j : Json) (n b e : JsVal) : Option DecodedUser :=
  match decContactList e with
  | none => none
  | some cs =>
    match jsMember j "g" with
    | none => none
    | some g => decodeG j n b cs g

/-- Evaluate the object literal `decodeUserToken` builds from parsed data;
any JavaScript throw is `none` (swallowed by the surrounding `try`). -/
def decodeEval (j : Json) : Option DecodedUser :=
  match jsMember j "n" with
  | none => none
  | some n =>
    match jsMember j "b" with
    | none => none
    | some b =>
      match jsMember j "e" with
      | none => none
      | some e => decodeE j n b e

/-- `decodeUserToken`: base64url-decode, UTF-8 decode, `JSON.parse`, rebuild
the profile object; every failure path returns `none` (the caught error). -/
def decodeUserToken (token : String) : Option DecodedUser :=
  match jsonParse (String.mk (utf8DecodeBytes (b64DecodeBytes token.data))) with
  | some j => decodeEval j
  | none => none

/-! ## Validation helpers and the registration route. -/

/-- Whether a character is JavaScript `String.prototype.trim` whitespace. -/
def jsWs (c : Char) : Bool :=
  c.toNat = 32 ∨ (9 ≤ c.toNat ∧ c.toNat ≤ 13) ∨ c.toNat = 160 ∨ c.toNat = 5760
    ∨ (8192 ≤ c.toNat ∧ c.toNat ≤ 8202) ∨ c.toNat = 8232 ∨ c.toNat = 8233
    ∨ c.toNat = 8239 ∨ c.toNat = 8287 ∨ c.toNat = 12288 ∨ c.toNat = 65279

/-- Trim leading and trailing whitespace. -/
def trimChars (l : List Char) : List Char :=
  ((l.dropWhile jsWs).reverse.dropWhile jsWs).reverse

/-- `v.trim()`: defined on strings, throws on anything else. -/
def jsTrim (v : JsVal) : Option String :=
  match v with
  | some (.str s) => some (String.mk (trimChars s.data))
  | _ => none

/-- `v.trim().toUpperCase()` (ASCII uppercasing suffices for blood groups). -/
def jsTrimUpper (v : JsVal) : Option String :=
  match v with
  | some (.str s) => some (String.mk ((trimChars s.data).map Char.toUpper))
  | _ => none

/-- `cleanPhoneNumber`: `phone.replace(/\D/g, '')`; throws on non-strings. -/
def cleanPhoneNumber (v : JsVal) : Option String :=
  match v with
  | some (.str s) => some (String.mk (s.data.filter Char.isDigit))
  | _ => none

/-- `isValidIndianPhone`: any value that is truthy and trims to a non-empty
string passes (the deliberately permissive current policy); `.trim()` on a
truthy non-string throws. -/
def isValidIndianPhone (v : JsVal) : Option Bool :=
  if truthy v then
    match v with
    | some (.str s) => some (decide (trimChars s.data ≠ []))
    | _ => none
  else some false

/-- One iteration of the contact/helpline validation loop:
`!x.name || !x[k2] || !isValidIndianPhone(x[k2])` failing means `false`. -/
def checkPair (x : Json) (k2 : String) : Option Bool := do
  let nm ← jsMember x "name"
  if ¬ truthy nm then pure false
  else do
    let ph ← jsMember x k2
    if ¬ truthy ph then pure false
    else isValidIndianPhone ph

/-- The validation loop: stops at the first failing entry. -/
def checkAll (xs : List Json) (k2 : String) : Option Bool :=
  match xs with
  | [] => some true
  | x :: rest => do
    let ok ← checkPair x k2
    if ok then checkAll rest k2 else pure false

/-- Build one normalized contact: `{name: c.name.trim(), phone: cleanPhoneNumber(c.phone)}`. -/
def buildContact (x : Json) : Option Contact := do
  let nm ← jsMember x "name"
  let nm2 ← jsTrim nm
  let ph ← jsMember x "phone"
  let ph2 ← cleanPhoneNumber ph
  pure ⟨nm2, ph2⟩

/-- Build the normalized contact list. -/
def buildContacts (xs : List Json) : Option (List Contact) :=
  match xs with
  | [] => some []
  | x :: rest => do
    let c ← buildContact x
    let cs ← buildContacts rest
    pure (c :: cs)

/-- Build one normalized helpline from its `name`/`number` fields. -/
def buildHelpline (x : Json) : Option Helpline := do
  let nm ← jsMember x "name"
  let nm2 ← jsTrim nm
  let ph ← jsMember x "number"
  let ph2 ← cleanPhoneNumber ph
  pure ⟨nm2, ph2⟩

/-- Build the normalized helpline list. -/
def buildHelplines (xs : List Json) : Option (List Helpline) :=
  match xs with
  | [] => some []
  | x :: rest => do
    let h ← buildHelpline x
    let hs ← buildHelplines rest
    pure (h :: hs)

/-- Outcome of `POST /api/register`: success with the issued token and the
normalized stored profile, a 400 validation error, or an uncaught fault. -/
inductive RegisterResult where
  | ok (token : String) (user : Profile)
  | err (msg : String)
  | fault

/-- The missing-fields validation message. -/
def msgMissingFields : String := "Missing required fields. सभी जानकारी आवश्यक है।"

/-- The empty-contacts validation message. -/
def msgContactsRequired : String :=
  "At least one emergency contact is required. कम से कम एक आपातकालीन संपर्क आवश्यक है।"

/-- The empty-helplines validation message. -/
def msgHelplinesRequired : String :=
  "At least one government helpline is required. कम से कम एक सरकारी हेल्पलाइन आवश्यक है।"

/-- The invalid-contact validation message. -/
def msgInvalidContact : String :=
  "Invalid emergency contact information. अमान्य आपातकालीन संपर्क जानकारी।"

/-- The invalid-helpline validation message. -/
def msgInvalidHelpline : String :=
  "Invalid government helpline information. अमान्य सरकारी हेल्पलाइन जानकारी।"

/-- The success tail of the registration handler: normalize the fields,
stamp `createdAt` and issue the token. -/
def regBuild (now1 now2 : Nat) (fullName bloodGroup : JsVal) (ec gh : List Json) :
    Option RegisterResult := do
  let fn ← jsTrim fullName
  let bg ← jsTrimUpper bloodGroup
  let cs ← buildContacts ec
  let hs ← buildHelplines gh
  let user : Profile := ⟨fn, bg, cs, hs, isoOfMillis now1⟩
  pure (.ok (encodeUserToken now2 user) user)

/-- The per-entry validation loops of the registration handler. -/
def regChecks (now1 now2 : Nat) (fullName bloodGroup : JsVal) (ec gh : List Json) :
    Option RegisterResult := do
  let okC ← checkAll ec "phone"
  if ¬ okC then pure (.err msgInvalidContact)
  else do
    let okH ← checkAll gh "number"
    if ¬ okH then pure (.err msgInvalidHelpline)
    else regBuild now1 now2 fullName bloodGroup ec gh

/-- The gating `if`s of the registration handler, in source order. -/
def regGate (now1 now2 : Nat)
    (fullName bloodGroup emergencyContacts governmentHelplines : JsVal) :
    Option RegisterResult :=
  if ¬ (truthy fullName ∧ truthy bloodGroup) then some (.err msgMissingFields)
  else
    match emergencyContacts with
    | some (.arr ec) =>
      if ec.length = 0 then some (.err msgContactsRequired)
      else
        match governmentHelplines with
        | some (.arr gh) =>
          if gh.length = 0 then some (.err msgHelplinesRequired)
          else regChecks now1 now2 fullName bloodGroup ec gh
        | _ => some (.err msgHelplinesRequired)
    | _ => some (.err msgContactsRequired)

/-- The registration handler body; `none` is an uncaught JavaScript throw.
`now1` is the `new Date()` read when stamping `createdAt`, `now2` the
`Date.now()` read inside `encodeUserToken`. -/
def registerE (now1 now2 : Nat) (body : Json) : Option RegisterResult := do
  let fullName ← jsMember body "fullName"
  let bloodGroup ← jsMember body "bloodGroup"
  let emergencyContacts ← jsMember body "emergencyContacts"
  let governmentHelplines ← jsMember body "governmentHelplines"
  regGate now1 now2 fullName bloodGroup emergencyContacts governmentHelplines

/-- `POST /api/register`. -/
def register (now1 now2 : Nat) (body : Json) : RegisterResult :=
  (registerE now1 now2 body).getD .fault

/-! ## The public-resolution route. -/

/-- `encodeBase64`: standard padded base64 of a string's UTF-8 bytes. -/
def encodeBase64 (s : String) : String := b64StdOfBytes (utf8Encode s.data)

/-- A byte of `Buffer.from(array)`: numbers wrap modulo 256, anything else
coerces to 0. -/
def jsByte (j : Json) : Nat :=
  match j with
  | .num n => (n % 256).toNat
  | _ => 0

/-- `Buffer.from(v, 'utf8').toString('base64')` on a dynamic value: strings
encode, arrays are taken as byte arrays, anything else throws. -/
def jsEncodeBase64 (v : JsVal) : Option String :=
  match v with
  | some (.str s) => some (encodeBase64 s)
  | some (.arr xs) => some (b64StdOfBytes (xs.map jsByte))
  | _ => none

/-- One emergency contact as exposed by the public view. -/
structure PubContact where
  name : JsVal
  phoneEncoded : String

/-- The JSON body of `GET /api/users/:token/public`. -/
structure PublicView where
  fullName : JsVal
  bloodGroup : JsVal
  emergencyContacts : List PubContact
  governmentHelplines : List DecHelpline

/-- Build the public contact list from decoded contacts; throws when a
decoded phone is not base64-encodable. -/
def pubContacts (cs : List DecContact) : Option (List PubContact) :=
  match cs with
  | [] => some []
  | c :: rest => do
    let pe ← jsEncodeBase64 c.phone
    let others ← pubContacts rest
    pure (⟨c.name, pe⟩ :: others)

/-- Build the public view from a decoded user. -/
def viewOfDecoded (u : DecodedUser) : Option PublicView := do
  let cs ← pubContacts u.emergencyContacts
  pure ⟨u.fullName, u.bloodGroup, cs, u.governmentHelplines⟩

/-- Build the public view from a stored profile record. -/
def viewOfProfile (p : Profile) : PublicView :=
  ⟨some (.str p.fullName), some (.str p.bloodGroup),
    p.emergencyContacts.map fun c => ⟨some (.str c.name), encodeBase64 c.phone⟩,
    p.governmentHelplines.map fun h => ⟨some (.str h.name), some (.str h.number)⟩⟩

/-- Outcome of `GET /api/users/:token/public`: the JSON view, a 404, or an
uncaught fault (500). -/
inductive ResolveResult where
  | ok (v : PublicView)
  | notFound
  | fault

/-- The Auxiliary Store's user collection, keyed by token. -/
abbrev UserStore := String → Option Profile

/-- `GET /api/users/:token/public`: decode the self-contained token, fall
back to the store, 404 when both fail. -/
def resolvePublic (store : UserStore) (token : String) : ResolveResult :=
  match decodeUserToken token with
  | some u =>
    match viewOfDecoded u with
    | some v => .ok v
    | none => .fault
  | none =>
    match store token with
    | some p => .ok (viewOfProfile p)
    | none => .notFound

/-! ## The photo store and one-time view (`database.js` + routes). -/

/-- A stored photo record (`photos[viewToken]`). -/
structure PhotoRec where
  filename : Option String
  originalName : Option String
  size : Nat
  patientName : Option String
  timestamp : Option String
  uploadedAt : String
  token : String
  viewToken : String
  viewed : Bool
  createdAt : String
  viewedAt : Option String
deriving DecidableEq

/-- The photo collection: an insertion-ordered object keyed by viewToken. -/
abbrev PhotoStore := List (String × PhotoRec)

/-- Object key lookup. -/
def photosGet (photos : PhotoStore) (k : String) : Option PhotoRec :=
  match photos with
  | [] => none
  | (k', r) :: rest => if k = k' then some r else photosGet rest k

/-- Object key assignment: replace in place, or append a new key. -/
def photosSet (photos : PhotoStore) (k : String) (r : PhotoRec) : PhotoStore :=
  match photos with
  | [] => [(k, r)]
  | (k', r') :: rest => if k = k' then (k, r) :: rest else (k', r') :: photosSet rest k r

/-- The `photoInfo` argument `logPhotoUpload` receives from the upload route. -/
structure PhotoInfo where
  filename : Option String
  originalName : Option String
  size : Nat
  patientName : Option String
  timestamp : Option String
  uploadedAt : String
  viewToken : String
deriving DecidableEq

/-- `logPhotoUpload`: store the record under its viewToken with
`viewed: false` and a fresh `createdAt`. -/
def logPhotoUpload (now : Nat) (photos : PhotoStore) (token : String) (pi : PhotoInfo) :
    PhotoStore :=
  photosSet photos pi.viewToken
    ⟨pi.filename, pi.originalName, pi.size, pi.patientName, pi.timestamp, pi.uploadedAt,
      token, pi.viewToken, false, isoOfMillis now, none⟩

/-- `getPhotoByViewToken`. -/
def getPhotoByViewToken (photos : PhotoStore) (viewToken : String) : Option PhotoRec :=
  photosGet photos viewToken

/-- `markPhotoAsViewed`: when the record exists, set `viewed` and overwrite
`viewedAt` with the current time; otherwise do nothing. -/
def markPhotoAsViewed (now : Nat) (photos : PhotoStore) (viewToken : String) : PhotoStore :=
  match photosGet photos viewToken with
  | some r => photosSet photos viewToken { r with viewed := true, viewedAt := some (isoOfMillis now) }
  | none => photos

/-- Outcome of `GET /photo/:viewToken`: the photo page, a 404, or a 410. -/
inductive ViewResult where
  | page
  | notFound
  | gone
deriving DecidableEq

/-- `GET /photo/:viewToken`: 404 for unknown tokens, 410 once viewed,
otherwise mark viewed and serve the page. -/
def viewPhoto (now : Nat) (photos : PhotoStore) (viewToken : String) :
    ViewResult × PhotoStore :=
  match photosGet photos viewToken with
  | none => (.notFound, photos)
  | some info =>
    if info.viewed then (.gone, photos)
    else (.page, markPhotoAsViewed now photos viewToken)

/-- The uploaded file as multer hands it to the route. -/
structure UploadFile where
  filename : Option String
  originalName : Option String
  size : Nat
deriving DecidableEq

/-- Outcome of `POST /api/upload-photo`. -/
inductive UploadResult where
  | ok (viewToken : String)
  | userNotFound
  | noPhoto
deriving DecidableEq

/-- `POST /api/upload-photo`: the owner token is validated by Auxiliary
Store lookup only (`db.getUser`); `viewToken` is the fresh random token. -/
def uploadPhoto (store : UserStore) (photos : PhotoStore) (now : Nat) (viewToken : String)
    (token : String) (file : Option UploadFile) (patientName timestamp : Option String) :
    UploadResult × PhotoStore :=
  match store token with
  | none => (.userNotFound, photos)
  | some _ =>
    match file with
    | none => (.noPhoto, photos)
    | some f =>
      (.ok viewToken,
        logPhotoUpload now photos token
          ⟨f.filename, f.originalName, f.size, patientName, timestamp, isoOfMillis now, viewToken⟩)

/-! ## The accident log (`database.js`). -/

/-- One accident log entry; `id` is the `Date.now()` reading at append time. -/
structure LogEntry where
  id : Nat
  token : String
  userName : JsVal
  latitude : JsVal
  longitude : JsVal
  mapsUrl : JsVal
  reportedAt : String

/-- `logAccidentLocation`: push one entry with `id: Date.now()`. -/
def logAccidentLocation (now : Nat) (logs : List LogEntry) (token : String)
    (userName latitude longitude mapsUrl : JsVal) (reportedAt : String) : List LogEntry :=
  logs ++ [⟨now, token, userName, latitude, longitude, mapsUrl, reportedAt⟩]

/-! ## Projections used to state route-level properties. -/

/-- The stored profile of a successful registration. -/
def regProfile : RegisterResult → Option Profile
  | .ok _ u => some u
  | _ => none

/-- The error message of a rejected registration. -/
def regErrMsg : RegisterResult → Option String
  | .err m => some m
  | _ => none

/-- Register, then resolve the issued token against the same deployment (the
spec's register-and-resolve scenario); a failed registration issues nothing. -/
def resolveAfterRegister (now1 now2 : Nat) (body : Json) (store : UserStore) :
    ResolveResult :=
  match register now1 now2 body with
  | .ok tok _ => resolvePublic store tok
  | _ => .notFound

/-! ## Round-trip of the base64 layer. -/

theorem b64Groups_lt : ∀ bs : List Nat, (∀ b ∈ bs, b < 256) → ∀ v ∈ b64Groups bs, v < 64
  | [], _ => by simp [b64Groups]
  | [b1], h => by
    have h1 := h b1 (by simp)
    simp only [b64Groups, List.mem_cons, List.mem_singleton, List.not_mem_nil, or_false]
    rintro v (rfl | rfl) <;> omega
  | [b1, b2], h => by
    have h1 := h b1 (by simp)
    have h2 := h b2 (by simp)
    simp only [b64Groups, List.mem_cons, List.not_mem_nil, or_false]
    rintro v (rfl | rfl | rfl) <;> omega
  | b1 :: b2 :: b3 :: rest, h => by
    have h1 := h b1 (by simp)
    have h2 := h b2 (by simp)
    have h3 := h b3 (by simp)
    have ih := b64Groups_lt rest (fun b hb => h b (by simp [hb]))
    simp only [b64Groups, List.mem_cons]
    rintro v (rfl | rfl | rfl | rfl | hv)
    · omega
    · omega
    · omega
    · omega
    · exact ih v hv

theorem b64Regroup_groups : ∀ bs : List Nat, (∀ b ∈ bs, b < 256) →
    b64Regroup (b64Groups bs) = bs
  | [], _ => rfl
  | [b1], h => by
    have h1 := h b1 (by simp)
    simp only [b64Groups, b64Regroup, List.cons.injEq, and_true]
    omega
  | [b1, b2], h => by
    have h1 := h b1 (by simp)
    have h2 := h b2 (by simp)
    simp only [b64Groups, b64Regroup, List.cons.injEq, and_true]
    constructor <;> omega
  | b1 :: b2 :: b3 :: rest, h => by
    have h1 := h b1 (by simp)
    have h2 := h b2 (by simp)
    have h3 := h b3 (by simp)
    have ih := b64Regroup_groups rest (fun b hb => h b (by simp [hb]))
    simp only [b64Groups, b64Regroup, List.cons.injEq]
    refine ⟨by omega, by omega, by omega, ih⟩

theorem b64CharVal_urlAlphabet : ∀ v < 64, b64CharVal (urlAlphabet.getD v 'A') = some v := by
  decide

theorem filterMap_url_chars : ∀ vs : List Nat, (∀ v ∈ vs, v < 64) →
    (vs.map fun v => urlAlphabet.getD v 'A').filterMap b64CharVal = vs := by
  intro vs
  induction vs with
  | nil => intro _; rfl
  | cons v vs ih =>
    intro h
    have hv := h v (by simp)
    simp only [List.map_cons, List.filterMap_cons, b64CharVal_urlAlphabet v hv]
    rw [ih fun w hw => h w (by simp [hw])]

theorem b64DecodeBytes_url (bs : List Nat) (h : ∀ b ∈ bs, b < 256) :
    b64DecodeBytes (b64UrlOfBytes bs).data = bs := by
  show b64Regroup ((((b64Groups bs).map fun v => urlAlphabet.getD v 'A')).filterMap b64CharVal) = bs
  rw [filterMap_url_chars _ (b64Groups_lt bs h)]
  exact b64Regroup_groups bs h

/-! ## Round-trip of the UTF-8 layer. -/

theorem char_valid_range (c : Char) : c.toNat < 55296 ∨ (57344 ≤ c.toNat ∧ c.toNat < 1114112) :=
  c.valid

theorem utf8EncodeChar_lt (c : Char) : ∀ b ∈ utf8EncodeChar c, b < 256 := by
  have h := char_valid_range c
  simp only [utf8EncodeChar]
  split_ifs <;> simp only [List.mem_cons, List.mem_singleton, List.not_mem_nil, or_false] <;>
    rintro b (rfl | rfl | rfl | rfl) <;> omega

theorem utf8Encode_lt : ∀ cs : List Char, ∀ b ∈ utf8Encode cs, b < 256 := by
  intro cs
  induction cs with
  | nil => simp [utf8Encode]
  | cons c cs ih =>
    intro b hb
    rw [utf8Encode, List.mem_append] at hb
    rcases hb with hb | hb
    · exact utf8EncodeChar_lt c b hb
    · exact ih b hb

theorem utf8Lead_ascii {b : Nat} (h : b < 128) :
    utf8Lead b = (some (Char.ofNat b), .start) := by
  simp [utf8Lead, h]

theorem utf8Lead_two {b : Nat} (h1 : 194 ≤ b) (h2 : b ≤ 223) :
    utf8Lead b = (none, .cont 1 (b - 192) 128 191) := by
  rw [utf8Lead, if_neg (by omega), if_pos ⟨h1, h2⟩]

theorem utf8Lead_three {b : Nat} (h1 : 224 ≤ b) (h2 : b ≤ 239) :
    utf8Lead b = (none, .cont 2 (b - 224) (if b = 224 then 160 else 128)
      (if b = 237 then 159 else 191)) := by
  rw [utf8Lead, if_neg (by omega), if_neg (by omega), if_pos ⟨h1, h2⟩]

theorem utf8Lead_four {b : Nat} (h1 : 240 ≤ b) (h2 : b ≤ 244) :
    utf8Lead b = (none, .cont 3 (b - 240) (if b = 240 then 144 else 128)
      (if b = 244 then 143 else 191)) := by
  rw [utf8Lead, if_neg (by omega), if_neg (by omega), if_neg (by omega), if_pos ⟨h1, h2⟩]

theorem utf8Run_start_emit {b : Nat} {c : Char} (rest : List Nat)
    (h : utf8Lead b = (some c, .start)) :
    utf8Run .start (b :: rest) = c :: utf8Run .start rest := by
  simp only [utf8Run, h]

theorem utf8Run_start_into {b : Nat} {st : Utf8State} (rest : List Nat)
    (h : utf8Lead b = (none, st)) :
    utf8Run .start (b :: rest) = utf8Run st rest := by
  simp only [utf8Run, h]

theorem utf8Run_cont_last {acc lo hi b : Nat} (rest : List Nat) (h1 : lo ≤ b) (h2 : b ≤ hi) :
    utf8Run (.cont 1 acc lo hi) (b :: rest) =
      Char.ofNat (acc * 64 + (b - 128)) :: utf8Run .start rest := by
  simp only [utf8Run, if_pos (⟨h1, h2⟩ : lo ≤ b ∧ b ≤ hi)]

theorem utf8Run_cont_two {acc lo hi b : Nat} (rest : List Nat) (h1 : lo ≤ b) (h2 : b ≤ hi) :
    utf8Run (.cont 2 acc lo hi) (b :: rest) =
      utf8Run (.cont 1 (acc * 64 + (b - 128)) 128 191) rest := by
  simp only [utf8Run, if_pos (⟨h1, h2⟩ : lo ≤ b ∧ b ≤ hi)]

theorem utf8Run_cont_three {acc lo hi b : Nat} (rest : List Nat) (h1 : lo ≤ b) (h2 : b ≤ hi) :
    utf8Run (.cont 3 acc lo hi) (b :: rest) =
      utf8Run (.cont 2 (acc * 64 + (b - 128)) 128 191) rest := by
  simp only [utf8Run, if_pos (⟨h1, h2⟩ : lo ≤ b ∧ b ≤ hi)]

theorem utf8Run_enc (c : Char) (rest : List Nat) :
    utf8Run .start (utf8EncodeChar c ++ rest) = c :: utf8Run .start rest := by
  have hval := char_valid_range c
  by_cases h1 : c.toNat < 128
  · have he : utf8EncodeChar c = [c.toNat] := by simp [utf8EncodeChar, h1]
    rw [he, List.singleton_append, utf8Run_start_emit rest (utf8Lead_ascii h1),
      Char.ofNat_toNat]
  · by_cases h2 : c.toNat < 2048
    · have he : utf8EncodeChar c = [192 + c.toNat / 64, 128 + c.toNat % 64] := by
        simp [utf8EncodeChar, h1, h2]
      rw [he, List.cons_append, List.singleton_append,
        utf8Run_start_into _ (utf8Lead_two (by omega) (by omega)),
        utf8Run_cont_last rest (by omega) (by omega)]
      have hv : 192 + c.toNat / 64 - 192 = c.toNat / 64 := by omega
      rw [hv]
      have hv2 : c.toNat / 64 * 64 + (128 + c.toNat % 64 - 128) = c.toNat := by omega
      rw [hv2, Char.ofNat_toNat]
    · by_cases h3 : c.toNat < 65536
      · have he : utf8EncodeChar c =
            [224 + c.toNat / 4096, 128 + c.toNat / 64 % 64, 128 + c.toNat % 64] := by
          simp [utf8EncodeChar, h1, h2, h3]
        have hb2 : (if 224 + c.toNat / 4096 = 224 then 160 else 128) ≤ 128 + c.toNat / 64 % 64 ∧
            128 + c.toNat / 64 % 64 ≤ (if 224 + c.toNat / 4096 = 237 then 159 else 191) := by
          constructor <;> split_ifs <;> omega
        rw [he, List.cons_append, List.cons_append, List.singleton_append,
          utf8Run_start_into _ (utf8Lead_three (by omega) (by omega)),
          utf8Run_cont_two _ hb2.1 hb2.2,
          utf8Run_cont_last rest (by omega) (by omega)]
        have hv : (224 + c.toNat / 4096 - 224) * 64 + (128 + c.toNat / 64 % 64 - 128) = c.toNat / 64 := by
          omega
        rw [hv]
        have hv2 : c.toNat / 64 * 64 + (128 + c.toNat % 64 - 128) = c.toNat := by omega
        rw [hv2, Char.ofNat_toNat]
      · have he : utf8EncodeChar c = [240 + c.toNat / 262144, 128 + c.toNat / 4096 % 64,
            128 + c.toNat / 64 % 64, 128 + c.toNat % 64] := by
          simp [utf8EncodeChar, h1, h2, h3]
        have hb2 : (if 240 + c.toNat / 262144 = 240 then 144 else 128) ≤ 128 + c.toNat / 4096 % 64 ∧
            128 + c.toNat / 4096 % 64 ≤ (if 240 + c.toNat / 262144 = 244 then 143 else 191) := by
          constructor <;> split_ifs <;> omega
        rw [he, List.cons_append, List.cons_append, List.cons_append, List.singleton_append,
          utf8Run_start_into _ (utf8Lead_four (by omega) (by omega)),
          utf8Run_cont_three _ hb2.1 hb2.2,
          utf8Run_cont_two _ (by omega) (by omega),
          utf8Run_cont_last rest (by omega) (by omega)]
        have hv : ((240 + c.toNat / 262144 - 240) * 64 + (128 + c.toNat / 4096 % 64 - 128)) * 64
            + (128 + c.toNat / 64 % 64 - 128) = c.toNat / 64 := by omega
        rw [hv]
        have hv2 : c.toNat / 64 * 64 + (128 + c.toNat % 64 - 128) = c.toNat := by omega
        rw [hv2, Char.ofNat_toNat]

theorem utf8_roundtrip : ∀ cs : List Char, utf8DecodeBytes (utf8Encode cs) = cs := by
  intro cs
  induction cs with
  | nil => rfl
  | cons c cs ih =>
    show utf8Run .start (utf8EncodeChar c ++ utf8Encode cs) = c :: cs
    rw [utf8Run_enc c (utf8Encode cs)]
    exact congrArg (c :: ·) ih

/-! ## Round-trip of decimal numerals. -/

theorem digitChar_isDigit {n : Nat} (h : n < 10) : (digitChar n).isDigit = true := by
  interval_cases n <;> decide

theorem digitChar_toNat {n : Nat} (h : n < 10) : (digitChar n).toNat = 48 + n := by
  interval_cases n <;> decide

theorem digitChar_ne_zero {n : Nat} (h1 : 1 ≤ n) (h2 : n < 10) : digitChar n ≠ '0' := by
  interval_cases n <;> decide

theorem natCharsF_congr : ∀ n f g : Nat, n < f → n < g → natCharsF f n = natCharsF g n := by
  intro n
  induction n using Nat.strong_induction_on with
  | _ n ih =>
    intro f g hf hg
    obtain ⟨f', rfl⟩ : ∃ f', f = f' + 1 := ⟨f - 1, by omega⟩
    obtain ⟨g', rfl⟩ : ∃ g', g = g' + 1 := ⟨g - 1, by omega⟩
    simp only [natCharsF]
    by_cases h : n < 10
    · rw [if_pos h, if_pos h]
    · rw [if_neg h, if_neg h]
      have hdiv : n / 10 < n := Nat.div_lt_self (by omega) (by norm_num)
      rw [ih (n / 10) hdiv f' g' (by omega) (by omega)]

theorem natChars_base {n : Nat} (h : n < 10) : natChars n = [digitChar n] := by
  simp only [natChars, natCharsF]
  rw [if_pos h]

theorem natChars_step {n : Nat} (h : 10 ≤ n) :
    natChars n = natChars (n / 10) ++ [digitChar (n % 10)] := by
  have hdiv : n / 10 < n := Nat.div_lt_self (by omega) (by norm_num)
  show natCharsF (n + 1) n = _
  simp only [natCharsF]
  rw [if_neg (by omega)]
  rw [natCharsF_congr (n / 10) n (n / 10 + 1) (by omega) (by omega)]
  rfl

theorem natChars_digits : ∀ n : Nat, ∀ c ∈ natChars n, c.isDigit = true := by
  intro n
  induction n using Nat.strong_induction_on with
  | _ n ih =>
    intro c hc
    by_cases h : n < 10
    · rw [natChars_base h, List.mem_singleton] at hc
      subst hc
      exact digitChar_isDigit h
    · rw [natChars_step (by omega), List.mem_append, List.mem_singleton] at hc
      rcases hc with hc | hc
      · exact ih (n / 10) (Nat.div_lt_self (by omega) (by norm_num)) c hc
      · subst hc
        exact digitChar_isDigit (by omega)

theorem natChars_head : ∀ n : Nat, 1 ≤ n →
    ∃ d tail, natChars n = digitChar d :: tail ∧ 1 ≤ d ∧ d < 10 := by
  intro n
  induction n using Nat.strong_induction_on with
  | _ n ih =>
    intro h1
    by_cases h : n < 10
    · exact ⟨n, [], natChars_base h, h1, h⟩
    · obtain ⟨d, tail, heq, hd1, hd10⟩ :=
        ih (n / 10) (Nat.div_lt_self (by omega) (by norm_num)) (by omega)
      exact ⟨d, tail ++ [digitChar (n % 10)], by rw [natChars_step (by omega), heq]; rfl,
        hd1, hd10⟩

/-- The numeric value of a big-endian decimal digit list. -/
def charsNum : List Char → Nat
  | [] => 0
  | c :: cs => (c.toNat - 48) * 10 ^ cs.length + charsNum cs

theorem parseDigits_spec : ∀ l : List Char, ∀ rest acc,
    (∀ c ∈ l, c.isDigit = true) → (∀ c, rest.head? = some c → c.isDigit = false) →
    parseDigits acc (l ++ rest) = (acc * 10 ^ l.length + charsNum l, rest) := by
  intro l
  induction l with
  | nil =>
    intro rest acc _ hrest
    cases rest with
    | nil => simp [parseDigits, charsNum]
    | cons c cs =>
      have hcd : c.isDigit = false := hrest c rfl
      simp [parseDigits, charsNum, hcd]
  | cons c l ih =>
    intro rest acc hl hrest
    have hc := hl c (by simp)
    rw [List.cons_append, parseDigits, if_pos hc,
      ih rest _ (fun x hx => hl x (by simp [hx])) hrest]
    have harith : (acc * 10 + (c.toNat - 48)) * 10 ^ l.length + charsNum l
        = acc * 10 ^ (c :: l).length + charsNum (c :: l) := by
      rw [charsNum, List.length_cons, pow_succ]
      ring
    rw [harith]

theorem charsNum_append_singleton : ∀ (l : List Char) (d : Char),
    charsNum (l ++ [d]) = charsNum l * 10 + (d.toNat - 48) := by
  intro l d
  induction l with
  | nil => simp [charsNum]
  | cons c l ih =>
    rw [List.cons_append, charsNum, charsNum, ih, List.length_append,
      List.length_singleton, pow_succ]
    ring

theorem charsNum_natChars : ∀ n : Nat, charsNum (natChars n) = n := by
  intro n
  induction n using Nat.strong_induction_on with
  | _ n ih =>
    by_cases h : n < 10
    · rw [natChars_base h, charsNum, charsNum]
      simp only [digitChar_toNat h, List.length_nil, pow_zero]
      omega
    · have hdiv : n / 10 < n := Nat.div_lt_self (by omega) (by norm_num)
      rw [natChars_step (by omega), charsNum_append_singleton, ih (n / 10) hdiv,
        digitChar_toNat (show n % 10 < 10 by omega)]
      omega

theorem parseNumberNat_natChars (n : Nat) (rest : List Char)
    (hd : ∀ c, rest.head? = some c → c.isDigit = false)
    (ht : numberTailOK rest = true) :
    parseNumberNat (natChars n ++ rest) = some (n, rest) := by
  by_cases h0 : n = 0
  · subst h0
    rw [natChars_base (by omega)]
    have hz : digitChar 0 = '0' := by decide
    rw [hz]
    cases rest with
    | nil => rfl
    | cons c2 cs =>
      have hcd := hd c2 rfl
      have ht' : ¬ (c2 = '.' ∨ c2 = 'e' ∨ c2 = 'E') := by
        simpa [numberTailOK] using ht
      simp only [List.singleton_append, parseNumberNat]
      rw [if_pos (by decide), if_neg]
      rintro (h | h)
      · simp [h] at hcd
      · exact ht' h
  · obtain ⟨d, tail, heq, hd1, hd10⟩ := natChars_head n (by omega)
    have htail : ∀ c ∈ tail, c.isDigit = true := by
      intro c hc
      exact natChars_digits n c (by rw [heq]; simp [hc])
    rw [heq, List.cons_append]
    simp only [parseNumberNat]
    rw [if_neg (digitChar_ne_zero hd1 hd10), if_pos (digitChar_isDigit hd10)]
    rw [parseDigits_spec tail rest _ htail hd]
    have hval : ((digitChar d).toNat - 48) * 10 ^ tail.length + charsNum tail = n := by
      have h1 : charsNum (natChars n) = n := charsNum_natChars n
      rw [heq, charsNum] at h1
      exact h1
    simp only [hval, ht, if_true]

theorem parseNumber_natChars (n : Nat) (rest : List Char)
    (hd : ∀ c, rest.head? = some c → c.isDigit = false)
    (ht : numberTailOK rest = true) :
    parseNumber (natChars n ++ rest) = some ((n : Int), rest) := by
  have hne : natChars n ≠ [] := by
    by_cases h : n < 10
    · rw [natChars_base h]; simp
    · rw [natChars_step (by omega)]; simp
  obtain ⟨c, l, heq⟩ : ∃ c l, natChars n = c :: l := by
    cases hh : natChars n with
    | nil => exact absurd hh hne
    | cons c l => exact ⟨c, l, rfl⟩
  have hcdig : c.isDigit = true := natChars_digits n c (by rw [heq]; simp)
  have hcne : c ≠ '-' := by
    intro hcc
    rw [hcc] at hcdig
    simp at hcdig
  rw [heq, List.cons_append]
  simp only [parseNumber]
  rw [if_neg hcne, ← List.cons_append, ← heq, parseNumberNat_natChars n rest hd ht]

/-! ## Round-trip of JSON string literals. -/

theorem hexVal_hexChar {d : Nat} (h : d < 16) : hexVal (hexChar d) = some d := by
  interval_cases d <;> decide

theorem parseStrBody_escList : ∀ l : List Char, ∀ rest : List Char,
    parseStrBody (escList l ++ '"' :: rest) = some (l, rest) := by
  intro l
  induction l with
  | nil =>
    intro rest
    rw [escList, List.nil_append, parseStrBody.eq_def]
    simp
  | cons c l ih =>
    intro rest
    rw [escList, List.append_assoc]
    by_cases h1 : c = '"'
    · subst h1
      have he : escChar '"' = ['\\', '"'] := by decide
      rw [he, parseStrBody.eq_def]
      norm_num
      rw [ih]
      rfl
    · by_cases h2 : c = '\\'
      · subst h2
        have he : escChar '\\' = ['\\', '\\'] := by decide
        rw [he, parseStrBody.eq_def]
        norm_num
        rw [ih]
        rfl
      · by_cases h3 : c = Char.ofNat 8
        · subst h3
          have he : escChar (Char.ofNat 8) = ['\\', 'b'] := by decide
          rw [he, parseStrBody.eq_def]
          norm_num
          rw [ih]
          rfl
        · by_cases h4 : c = Char.ofNat 9
          · subst h4
            have he : escChar (Char.ofNat 9) = ['\\', 't'] := by decide
            rw [he, parseStrBody.eq_def]
            norm_num
            rw [ih]
            rfl
          · by_cases h5 : c = Char.ofNat 10
            · subst h5
              have he : escChar (Char.ofNat 10) = ['\\', 'n'] := by decide
              rw [he, parseStrBody.eq_def]
              norm_num
              rw [ih]
              rfl
            · by_cases h6 : c = Char.ofNat 12
              · subst h6
                have he : escChar (Char.ofNat 12) = ['\\', 'f'] := by decide
                rw [he, parseStrBody.eq_def]
                norm_num
                rw [ih]
                rfl
              · by_cases h7 : c = Char.ofNat 13
                · subst h7
                  have he : escChar (Char.ofNat 13) = ['\\', 'r'] := by decide
                  rw [he, parseStrBody.eq_def]
                  norm_num
                  rw [ih]
                  rfl
                · by_cases h8 : c.toNat < 32
                  · have he : escChar c = ['\\', 'u', '0', '0', hexChar (c.toNat / 16),
                        hexChar (c.toNat % 16)] := by
                      rw [escChar, if_neg h1, if_neg h2, if_neg h3, if_neg h4, if_neg h5,
                        if_neg h6, if_neg h7, if_pos h8]
                    have hhi : hexVal (hexChar (c.toNat / 16)) = some (c.toNat / 16) :=
                      hexVal_hexChar (by omega)
                    have hlo : hexVal (hexChar (c.toNat % 16)) = some (c.toNat % 16) :=
                      hexVal_hexChar (by omega)
                    have hz : hexVal '0' = some 0 := by decide
                    have hue : uEscChar (((0 * 16 + 0) * 16 + c.toNat / 16) * 16 + c.toNat % 16)
                        = c := by
                      have hval : ((0 * 16 + 0) * 16 + c.toNat / 16) * 16 + c.toNat % 16
                          = c.toNat := by omega
                      rw [hval, uEscChar, if_neg (by omega), Char.ofNat_toNat]
                    rw [he, parseStrBody.eq_def]
                    simp only [List.cons_append, List.nil_append]
                    rw [if_neg (by decide), if_pos (by decide), if_neg (by decide),
                      if_neg (by decide), if_neg (by decide), if_neg (by decide),
                      if_neg (by decide), if_neg (by decide), if_neg (by decide),
                      if_pos (by decide)]
                    rw [hz, hhi, hlo]
                    simp only []
                    rw [hue, ih]
                    rfl
                  · have he : escChar c = [c] := by
                      rw [escChar, if_neg h1, if_neg h2, if_neg h3, if_neg h4, if_neg h5,
                        if_neg h6, if_neg h7, if_neg h8]
                    rw [he, List.singleton_append, parseStrBody.eq_def]
                    simp only []
                    rw [if_neg h1, if_neg h2, if_neg (by omega), ih]
                    rfl

/-! ## The JSON parser on serialiser output. -/

theorem stringMkData (s : String) : String.mk s.data = s := by
  cases s
  rfl

theorem skipWs_not_ws {c : Char} (cs : List Char)
    (h : ¬(c = ' ' ∨ c = Char.ofNat 9 ∨ c = Char.ofNat 10 ∨ c = Char.ofNat 13)) :
    skipWs (c :: cs) = c :: cs := by
  rw [skipWs, if_neg h]

theorem digit_not_ws {c : Char} (h : c.isDigit = true) :
    ¬(c = ' ' ∨ c = Char.ofNat 9 ∨ c = Char.ofNat 10 ∨ c = Char.ofNat 13) := by
  rintro (rfl | rfl | rfl | rfl) <;> exact absurd h (by decide)

theorem digit_ne {c : Char} (h : c.isDigit = true) {d : Char} (hd : d.isDigit = false) :
    c ≠ d := by
  intro hcd
  rw [hcd, hd] at h
  cases h

theorem strLit_shape (s : String) (rest : List Char) :
    strLit s ++ rest = '"' :: (escList s.data ++ '"' :: rest) := by
  rw [strLit]
  simp [List.append_assoc]

theorem parseF_val_strLit (f : Nat) (s : String) (rest : List Char) :
    parseF (f + 1) .val (strLit s ++ rest) = some (.v (.str s), rest) := by
  rw [strLit_shape, parseF]
  rw [skipWs_not_ws _ (by decide)]
  simp only []
  rw [if_neg (by decide), if_neg (by decide), if_pos (by decide), parseStrBody_escList]

theorem parseF_val_natChars (f n : Nat) (rest : List Char)
    (hd : ∀ c, rest.head? = some c → c.isDigit = false)
    (ht : numberTailOK rest = true) :
    parseF (f + 1) .val (natChars n ++ rest) = some (.v (.num n), rest) := by
  have hne : natChars n ≠ [] := by
    by_cases h : n < 10
    · rw [natChars_base h]; simp
    · rw [natChars_step (by omega)]; simp
  obtain ⟨c, l, heq⟩ : ∃ c l, natChars n = c :: l := by
    cases hh : natChars n with
    | nil => exact absurd hh hne
    | cons c l => exact ⟨c, l, rfl⟩
  have hcdig : c.isDigit = true := natChars_digits n c (by rw [heq]; simp)
  rw [heq, List.cons_append, parseF]
  rw [skipWs_not_ws _ (digit_not_ws hcdig)]
  simp only []
  rw [if_neg (digit_ne hcdig (by decide)), if_neg (digit_ne hcdig (by decide)),
    if_neg (digit_ne hcdig (by decide)), if_neg (digit_ne hcdig (by decide)),
    if_neg (digit_ne hcdig (by decide)), if_neg (digit_ne hcdig (by decide)),
    ← List.cons_append, ← heq, parseNumber_natChars n rest hd ht]

/-- The member text of a JSON object (keys serialised, values given as text). -/
def msChars : List (String × Json × List Char) → List Char
  | [] => []
  | [it] => strLit it.1 ++ ':' :: it.2.2
  | it :: it2 :: its => strLit it.1 ++ ':' :: (it.2.2 ++ ',' :: msChars (it2 :: its))

/-- The element text of a JSON array. -/
def esChars : List (Json × List Char) → List Char
  | [] => []
  | [it] => it.2
  | it :: it2 :: its => it.2 ++ ',' :: esChars (it2 :: its)

theorem parseF_members_gen (P : List Char → Prop) (F0 : Nat)
    (hPc : ∀ X : List Char, P (',' :: X)) (hPb : ∀ X : List Char, P (rbrace :: X)) :
    ∀ (items : List (String × Json × List Char)),
    (∀ it ∈ items, ∀ g rest2, F0 ≤ g → P rest2 →
      parseF g .val (it.2.2 ++ rest2) = some (.v it.2.1, rest2)) →
    ∀ f rest, items ≠ [] → items.length + F0 + 1 ≤ f →
    parseF f .members (msChars items ++ rbrace :: rest)
      = some (.ms (items.map fun it => (it.1, it.2.1)), rest) := by
  intro items
  induction items with
  | nil => intro _ f rest hne; exact absurd rfl hne
  | cons it items ih =>
    intro hvals f rest _ hf
    obtain ⟨k, v, vc⟩ := it
    obtain ⟨f', rfl⟩ : ∃ f', f = f' + 1 := ⟨f - 1, by omega⟩
    cases items with
    | nil =>
      have hsh : msChars [(k, v, vc)] ++ rbrace :: rest
          = '"' :: (escList k.data ++ '"' :: (':' :: (vc ++ rbrace :: rest))) := by
        simp [msChars, strLit, List.append_assoc]
      rw [parseF, hsh]
      rw [skipWs_not_ws _ (by decide)]
      simp only []
      rw [if_pos (by decide), parseStrBody_escList]
      simp only []
      rw [skipWs_not_ws _ (by decide)]
      simp only []
      rw [if_pos (by decide)]
      rw [hvals (k, v, vc) (by simp) f' (rbrace :: rest) (by omega) (hPb rest)]
      simp only []
      rw [skipWs_not_ws _ (by decide)]
      simp only []
      rw [if_neg (by decide), if_pos (by decide)]
      simp [stringMkData]
    | cons it2 items' =>
      have hsh : msChars ((k, v, vc) :: it2 :: items') ++ rbrace :: rest
          = '"' :: (escList k.data ++ '"' ::
              (':' :: (vc ++ ',' :: (msChars (it2 :: items') ++ rbrace :: rest)))) := by
        simp [msChars, strLit, List.append_assoc]
      rw [parseF, hsh]
      rw [skipWs_not_ws _ (by decide)]
      simp only []
      rw [if_pos (by decide), parseStrBody_escList]
      simp only []
      rw [skipWs_not_ws _ (by decide)]
      simp only []
      rw [if_pos (by decide)]
      rw [hvals (k, v, vc) (by simp) f' (',' :: (msChars (it2 :: items') ++ rbrace :: rest))
        (by omega) (hPc _)]
      simp only []
      rw [skipWs_not_ws _ (by decide)]
      simp only []
      rw [if_pos (by decide)]
      rw [ih (fun x hx => hvals x (by simp [hx])) f' rest (by simp) (by simp at hf ⊢; omega)]
      simp [stringMkData]

theorem parseF_elems_gen (P : List Char → Prop) (F0 : Nat)
    (hPc : ∀ X : List Char, P (',' :: X)) (hPb : ∀ X : List Char, P (']' :: X)) :
    ∀ (items : List (Json × List Char)),
    (∀ it ∈ items, ∀ g rest2, F0 ≤ g → P rest2 →
      parseF g .val (it.2 ++ rest2) = some (.v it.1, rest2)) →
    ∀ f rest, items ≠ [] → items.length + F0 ≤ f →
    parseF f .elems (esChars items ++ ']' :: rest)
      = some (.vs (items.map fun it => it.1), rest) := by
  intro items
  induction items with
  | nil => intro _ f rest hne; exact absurd rfl hne
  | cons it items ih =>
    intro hvals f rest _ hf
    obtain ⟨v, vc⟩ := it
    obtain ⟨f', rfl⟩ : ∃ f', f = f' + 1 := ⟨f - 1, by simp at hf; omega⟩
    cases items with
    | nil =>
      have hsh : esChars [(v, vc)] ++ ']' :: rest = vc ++ ']' :: rest := by
        simp [esChars]
      rw [parseF, hsh]
      rw [hvals (v, vc) (by simp) f' (']' :: rest) (by simp at hf; omega) (hPb rest)]
      simp only []
      rw [skipWs_not_ws _ (by decide)]
      simp only []
      rw [if_neg (by decide), if_pos (by decide)]
      simp
    | cons it2 items' =>
      have hsh : esChars ((v, vc) :: it2 :: items') ++ ']' :: rest
          = vc ++ ',' :: (esChars (it2 :: items') ++ ']' :: rest) := by
        simp [esChars, List.append_assoc]
      rw [parseF, hsh]
      rw [hvals (v, vc) (by simp) f' (',' :: (esChars (it2 :: items') ++ ']' :: rest))
        (by simp at hf; omega) (hPc _)]
      simp only []
      rw [skipWs_not_ws _ (by decide)]
      simp only []
      rw [if_pos (by decide)]
      rw [ih (fun x hx => hvals x (by simp [hx])) f' rest (by simp) (by simp at hf ⊢; omega)]
      simp

theorem parseF_val_objChars (P : List Char → Prop) (F0 : Nat)
    (hPc : ∀ X : List Char, P (',' :: X)) (hPb : ∀ X : List Char, P (rbrace :: X))
    (items : List (String × Json × List Char))
    (hvals : ∀ it ∈ items, ∀ g rest2, F0 ≤ g → P rest2 →
      parseF g .val (it.2.2 ++ rest2) = some (.v it.2.1, rest2))
    (f : Nat) (rest : List Char) (hne : items ≠ []) (hf : items.length + F0 + 2 ≤ f) :
    parseF f .val (lbrace :: (msChars items ++ rbrace :: rest))
      = some (.v (.obj (items.map fun it => (it.1, it.2.1))), rest) := by
  obtain ⟨f', rfl⟩ : ∃ f', f = f' + 1 := ⟨f - 1, by omega⟩
  obtain ⟨it, items', rfl⟩ : ∃ it items', items = it :: items' := by
    cases items with
    | nil => exact absurd rfl hne
    | cons it items' => exact ⟨it, items', rfl⟩
  have hq : ∃ tl, msChars (it :: items') ++ rbrace :: rest = '"' :: tl := by
    cases items' with
    | nil =>
      exact ⟨escList it.1.data ++ '"' :: ':' :: (it.2.2 ++ rbrace :: rest),
        by simp [msChars, strLit, List.append_assoc]⟩
    | cons it2 its =>
      exact ⟨escList it.1.data ++ '"' :: ':' :: (it.2.2 ++ ',' :: (msChars (it2 :: its) ++ rbrace :: rest)),
        by simp [msChars, strLit, List.append_assoc]⟩
  obtain ⟨tl, htl⟩ := hq
  rw [parseF]
  rw [skipWs_not_ws _ (by decide)]
  simp only []
  rw [if_pos (by decide), htl]
  rw [skipWs_not_ws _ (by decide)]
  simp only []
  rw [if_neg (by decide), ← htl,
    parseF_members_gen P F0 hPc hPb (it :: items') hvals f' rest (by simp) (by simp at hf ⊢; omega)]

theorem parseF_val_arrChars (P : List Char → Prop) (F0 : Nat)
    (hPc : ∀ X : List Char, P (',' :: X)) (hPb : ∀ X : List Char, P (']' :: X))
    (items : List (Json × List Char))
    (hvals : ∀ it ∈ items, ∀ g rest2, F0 ≤ g → P rest2 →
      parseF g .val (it.2 ++ rest2) = some (.v it.1, rest2))
    (f : Nat) (rest : List Char) (hne : items ≠ []) (hf : items.length + F0 + 1 ≤ f)
    (hhead : ∃ tl, esChars items = lbrace :: tl) :
    parseF f .val ('[' :: (esChars items ++ ']' :: rest))
      = some (.v (.arr (items.map fun it => it.1)), rest) := by
  obtain ⟨f', rfl⟩ : ∃ f', f = f' + 1 := ⟨f - 1, by omega⟩
  obtain ⟨tl, htl⟩ := hhead
  have htl2 : esChars items ++ ']' :: rest = lbrace :: (tl ++ ']' :: rest) := by
    rw [htl]; rfl
  rw [parseF]
  rw [skipWs_not_ws _ (by decide)]
  simp only []
  rw [if_neg (by decide), if_pos (by decide), htl2]
  rw [skipWs_not_ws _ (by decide)]
  simp only []
  rw [if_neg (by decide), ← htl2,
    parseF_elems_gen P F0 hPc hPb items hvals f' rest hne (by omega)]

theorem parseF_val_arrEmpty (f : Nat) (rest : List Char) :
    parseF (f + 1) .val ('[' :: ']' :: rest) = some (.v (.arr []), rest) := by
  rw [parseF]
  rw [skipWs_not_ws _ (by decide)]
  simp only []
  rw [if_neg (by decide), if_pos (by decide)]
  rw [skipWs_not_ws _ (by decide)]
  simp only []
  rw [if_pos (by decide)]

/-! ## Serialiser text of the profile object, in the parser's shapes. -/

/-- The serialised text of a `{n, p}` pair object. -/
def pairChars (a b : String) : List Char :=
  lbrace :: (msChars [("n", .str a, strLit a), ("p", .str b, strLit b)] ++ [rbrace])

/-- The serialised text of a JSON array from element items. -/
def arrChars (items : List (Json × List Char)) : List Char :=
  '[' :: (esChars items ++ [']'])

/-- An emergency contact as an array element item. -/
def contactItem (c : Contact) : Json × List Char :=
  (.obj [("n", .str c.name), ("p", .str c.phone)], pairChars c.name c.phone)

/-- A government helpline as an array element item. -/
def helplineItem (h : Helpline) : Json × List Char :=
  (.obj [("n", .str h.name), ("p", .str h.number)], pairChars h.name h.number)

/-- The five members of the serialised profile object. -/
def userItems (now : Nat) (u : Profile) : List (String × Json × List Char) :=
  [("n", .str u.fullName, strLit u.fullName),
   ("b", .str u.bloodGroup, strLit u.bloodGroup),
   ("e", .arr (u.emergencyContacts.map fun c => .obj [("n", .str c.name), ("p", .str c.phone)]),
     arrChars (u.emergencyContacts.map contactItem)),
   ("g", .arr (u.governmentHelplines.map fun h => .obj [("n", .str h.name), ("p", .str h.number)]),
     arrChars (u.governmentHelplines.map helplineItem)),
   ("t", .num now, natChars now)]

theorem intercalate_one {α : Type} (sep : List α) (x : List α) :
    List.intercalate sep [x] = x := by
  simp [List.intercalate]

theorem intercalate_cons₂ {α : Type} (sep x y : List α) (ys : List (List α)) :
    List.intercalate sep (x :: y :: ys) = x ++ sep ++ List.intercalate sep (y :: ys) := by
  simp [List.intercalate, List.intersperse]

theorem stringifyF_pair (g : Nat) (a b : String) :
    stringifyF (g + 2) (.obj [("n", .str a), ("p", .str b)]) = pairChars a b := by
  show lbrace :: _ ++ [rbrace] = _
  rw [pairChars]
  simp [stringifyF, msChars, intercalate_cons₂, intercalate_one, List.append_assoc]

theorem stringifyF_contacts_arr (cs : List Contact) :
    stringifyF 3 (.arr (cs.map fun c => .obj [("n", .str c.name), ("p", .str c.phone)]))
      = arrChars (cs.map contactItem) := by
  show '[' :: _ ++ [']'] = _
  rw [arrChars]
  have h : List.intercalate [','] (((cs.map fun c => Json.obj [("n", .str c.name),
      ("p", .str c.phone)]).map (stringifyF 2))) = esChars (cs.map contactItem) := by
    induction cs with
    | nil => rfl
    | cons c cs ih =>
      cases cs with
      | nil =>
        simp only [List.map_cons, List.map_nil, intercalate_one]
        show stringifyF 2 _ = esChars [contactItem c]
        rw [esChars, stringifyF_pair 0 c.name c.phone]
        rfl
      | cons c2 cs2 =>
        simp only [List.map_cons] at ih ⊢
        rw [intercalate_cons₂, ih, esChars, stringifyF_pair 0 c.name c.phone]
        show pairChars c.name c.phone ++ [','] ++ _ = pairChars c.name c.phone ++ ',' :: _
        simp [List.append_assoc]
  rw [← h]
  simp

theorem stringifyF_helplines_arr (hs : List Helpline) :
    stringifyF 3 (.arr (hs.map fun h => .obj [("n", .str h.name), ("p", .str h.number)]))
      = arrChars (hs.map helplineItem) := by
  show '[' :: _ ++ [']'] = _
  rw [arrChars]
  have h : List.intercalate [','] (((hs.map fun h => Json.obj [("n", .str h.name),
      ("p", .str h.number)]).map (stringifyF 2))) = esChars (hs.map helplineItem) := by
    induction hs with
    | nil => rfl
    | cons c cs ih =>
      cases cs with
      | nil =>
        simp only [List.map_cons, List.map_nil, intercalate_one]
        show stringifyF 2 _ = esChars [helplineItem c]
        rw [esChars, stringifyF_pair 0 c.name c.number]
        rfl
      | cons c2 cs2 =>
        simp only [List.map_cons] at ih ⊢
        rw [intercalate_cons₂, ih, esChars, stringifyF_pair 0 c.name c.number]
        show pairChars c.name c.number ++ [','] ++ _ = pairChars c.name c.number ++ ',' :: _
        simp [List.append_assoc]
  rw [← h]
  simp

theorem stringifyF_num_nat (n : Nat) : stringifyF 3 (.num n) = natChars n := by
  show intChars n = natChars n
  rw [intChars, if_neg (by omega)]
  simp

theorem stringifyF_user (now : Nat) (u : Profile) :
    stringifyF 4 (userJson now u) = lbrace :: (msChars (userItems now u) ++ [rbrace]) := by
  have hstr : ∀ s : String, stringifyF 3 (.str s) = strLit s := fun s => rfl
  show lbrace :: _ ++ [rbrace] = _
  simp only [List.map_cons, List.map_nil]
  rw [intercalate_cons₂, intercalate_cons₂, intercalate_cons₂, intercalate_cons₂,
    intercalate_one, hstr, hstr, stringifyF_contacts_arr, stringifyF_helplines_arr,
    stringifyF_num_nat]
  rw [userItems]
  simp only [msChars]
  simp [List.append_assoc]

/-! ## Parsing the serialised profile object. -/

/-- What a numeral value may be followed by: a non-digit, non-fraction,
non-exponent continuation. -/
def numOK (cs : List Char) : Prop :=
  (∀ c, cs.head? = some c → c.isDigit = false) ∧ numberTailOK cs = true

theorem numOK_comma (X : List Char) : numOK (',' :: X) := by
  constructor
  · intro c hc
    simp only [List.head?_cons, Option.some.injEq] at hc
    subst hc
    decide
  · rw [numberTailOK]
    decide

theorem numOK_rbrace (X : List Char) : numOK (rbrace :: X) := by
  constructor
  · intro c hc
    simp only [List.head?_cons, Option.some.injEq] at hc
    subst hc
    decide
  · rw [numberTailOK]
    decide

theorem parseF_val_pairChars (g : Nat) (a b : String) (rest : List Char) (hg : 5 ≤ g) :
    parseF g .val (pairChars a b ++ rest)
      = some (.v (.obj [("n", .str a), ("p", .str b)]), rest) := by
  have hsh : pairChars a b ++ rest
      = lbrace :: (msChars [("n", .str a, strLit a), ("p", .str b, strLit b)]
          ++ rbrace :: rest) := by
    simp [pairChars, List.append_assoc]
  have hvals : ∀ it ∈ [("n", Json.str a, strLit a), ("p", Json.str b, strLit b)],
      ∀ g2 rest2, 1 ≤ g2 → (fun _ => True) rest2 →
      parseF g2 .val (it.2.2 ++ rest2) = some (.v it.2.1, rest2) := by
    intro it hit g2 rest2 hg2 _
    obtain ⟨g2', rfl⟩ : ∃ g2', g2 = g2' + 1 := ⟨g2 - 1, by omega⟩
    simp only [List.mem_cons, List.mem_singleton, List.not_mem_nil, or_false] at hit
    rcases hit with rfl | rfl
    · exact parseF_val_strLit g2' a rest2
    · exact parseF_val_strLit g2' b rest2
  rw [hsh, parseF_val_objChars (fun _ => True) 1 (fun _ => trivial) (fun _ => trivial)
    _ hvals g rest (by simp) (by simp; omega)]
  simp

theorem parseF_val_contactsArr (g : Nat) (cs : List Contact) (rest : List Char)
    (hg : cs.length + 6 ≤ g) :
    parseF g .val (arrChars (cs.map contactItem) ++ rest)
      = some (.v (.arr (cs.map fun c => .obj [("n", .str c.name), ("p", .str c.phone)])),
          rest) := by
  cases cs with
  | nil =>
    obtain ⟨g', rfl⟩ : ∃ g', g = g' + 1 := ⟨g - 1, by omega⟩
    have hsh : arrChars ([] : List (Json × List Char)) ++ rest = '[' :: ']' :: rest := rfl
    rw [List.map_nil, hsh, parseF_val_arrEmpty]
    rfl
  | cons c cs' =>
    have hsh : arrChars ((c :: cs').map contactItem) ++ rest
        = '[' :: (esChars ((c :: cs').map contactItem) ++ ']' :: rest) := by
      simp [arrChars, List.append_assoc]
    have hvals : ∀ it ∈ (c :: cs').map contactItem, ∀ g2 rest2, 5 ≤ g2 →
        (fun _ => True) rest2 → parseF g2 .val (it.2 ++ rest2) = some (.v it.1, rest2) := by
      intro it hit g2 rest2 hg2 _
      rw [List.mem_map] at hit
      obtain ⟨c0, _, rfl⟩ := hit
      exact parseF_val_pairChars g2 c0.name c0.phone rest2 hg2
    have hhead : ∃ tl, esChars ((c :: cs').map contactItem) = lbrace :: tl := by
      cases cs' with
      | nil =>
        exact ⟨msChars [("n", .str c.name, strLit c.name), ("p", .str c.phone, strLit c.phone)]
          ++ [rbrace], by simp [esChars, contactItem, pairChars]⟩
      | cons c2 cs2 =>
        exact ⟨(msChars [("n", .str c.name, strLit c.name), ("p", .str c.phone, strLit c.phone)]
          ++ [rbrace]) ++ ',' :: esChars ((c2 :: cs2).map contactItem),
          by simp [esChars, contactItem, pairChars]⟩
    rw [hsh, parseF_val_arrChars (fun _ => True) 5 (fun _ => trivial) (fun _ => trivial)
      _ hvals g rest (by simp) (by simp at hg ⊢; omega) hhead]
    simp [contactItem]

theorem parseF_val_helplinesArr (g : Nat) (hs : List Helpline) (rest : List Char)
    (hg : hs.length + 6 ≤ g) :
    parseF g .val (arrChars (hs.map helplineItem) ++ rest)
      = some (.v (.arr (hs.map fun h => .obj [("n", .str h.name), ("p", .str h.number)])),
          rest) := by
  cases hs with
  | nil =>
    obtain ⟨g', rfl⟩ : ∃ g', g = g' + 1 := ⟨g - 1, by omega⟩
    have hsh : arrChars ([] : List (Json × List Char)) ++ rest = '[' :: ']' :: rest := rfl
    rw [List.map_nil, hsh, parseF_val_arrEmpty]
    rfl
  | cons h hs' =>
    have hsh : arrChars ((h :: hs').map helplineItem) ++ rest
        = '[' :: (esChars ((h :: hs').map helplineItem) ++ ']' :: rest) := by
      simp [arrChars, List.append_assoc]
    have hvals : ∀ it ∈ (h :: hs').map helplineItem, ∀ g2 rest2, 5 ≤ g2 →
        (fun _ => True) rest2 → parseF g2 .val (it.2 ++ rest2) = some (.v it.1, rest2) := by
      intro it hit g2 rest2 hg2 _
      rw [List.mem_map] at hit
      obtain ⟨h0, _, rfl⟩ := hit
      exact parseF_val_pairChars g2 h0.name h0.number rest2 hg2
    have hhead : ∃ tl, esChars ((h :: hs').map helplineItem) = lbrace :: tl := by
      cases hs' with
      | nil =>
        exact ⟨msChars [("n", .str h.name, strLit h.name), ("p", .str h.number, strLit h.number)]
          ++ [rbrace], by simp [esChars, helplineItem, pairChars]⟩
      | cons h2 hs2 =>
        exact ⟨(msChars [("n", .str h.name, strLit h.name), ("p", .str h.number, strLit h.number)]
          ++ [rbrace]) ++ ',' :: esChars ((h2 :: hs2).map helplineItem),
          by simp [esChars, helplineItem, pairChars]⟩
    rw [hsh, parseF_val_arrChars (fun _ => True) 5 (fun _ => trivial) (fun _ => trivial)
      _ hvals g rest (by simp) (by simp at hg ⊢; omega) hhead]
    simp [helplineItem]

theorem parseF_val_userChars (now : Nat) (u : Profile) (f : Nat) (rest : List Char)
    (hf : u.emergencyContacts.length + u.governmentHelplines.length + 13 ≤ f) :
    parseF f .val (lbrace :: (msChars (userItems now u) ++ rbrace :: rest))
      = some (.v (userJson now u), rest) := by
  set F0 := u.emergencyContacts.length + u.governmentHelplines.length + 6 with hF0
  have hvals : ∀ it ∈ userItems now u, ∀ g rest2, F0 ≤ g → numOK rest2 →
      parseF g .val (it.2.2 ++ rest2) = some (.v it.2.1, rest2) := by
    intro it hit g rest2 hg hnum
    rw [userItems] at hit
    simp only [List.mem_cons, List.mem_singleton, List.not_mem_nil, or_false] at hit
    rcases hit with rfl | rfl | rfl | rfl | rfl
    · obtain ⟨g', rfl⟩ : ∃ g', g = g' + 1 := ⟨g - 1, by omega⟩
      exact parseF_val_strLit g' u.fullName rest2
    · obtain ⟨g', rfl⟩ : ∃ g', g = g' + 1 := ⟨g - 1, by omega⟩
      exact parseF_val_strLit g' u.bloodGroup rest2
    · exact parseF_val_contactsArr g u.emergencyContacts rest2 (by omega)
    · exact parseF_val_helplinesArr g u.governmentHelplines rest2 (by omega)
    · obtain ⟨g', rfl⟩ : ∃ g', g = g' + 1 := ⟨g - 1, by omega⟩
      exact parseF_val_natChars g' now rest2 hnum.1 hnum.2
  rw [parseF_val_objChars numOK F0 numOK_comma numOK_rbrace _ hvals f rest
    (by rw [userItems]; simp) (by rw [userItems]; simp; omega)]
  rw [userJson, userItems]
  simp

theorem esChars_len_ge : ∀ items : List (Json × List Char),
    (∀ it ∈ items, 1 ≤ it.2.length) → items.length ≤ (esChars items).length := by
  intro items
  induction items with
  | nil => intro _; simp [esChars]
  | cons it items ih =>
    intro h
    cases items with
    | nil =>
      have := h it (by simp)
      simp only [esChars, List.length_singleton]
      omega
    | cons it2 its =>
      have h1 := h it (by simp)
      have h2 := ih (fun x hx => h x (by simp [List.mem_cons] at hx ⊢; tauto))
      simp only [esChars, List.length_append, List.length_cons] at h2 ⊢
      omega

theorem strLit_len_ge (s : String) : 2 ≤ (strLit s).length := by
  simp [strLit]

theorem natChars_len_ge (n : Nat) : 1 ≤ (natChars n).length := by
  by_cases h : n < 10
  · rw [natChars_base h]; simp
  · rw [natChars_step (by omega)]; simp

theorem pairChars_len_ge (a b : String) : 1 ≤ (pairChars a b).length := by
  simp [pairChars]

theorem stringify_user_len (now : Nat) (u : Profile) :
    u.emergencyContacts.length + u.governmentHelplines.length + 12
      ≤ (stringifyF 4 (userJson now u)).length := by
  rw [stringifyF_user]
  have hc : u.emergencyContacts.length
      ≤ (esChars (u.emergencyContacts.map contactItem)).length := by
    have h := esChars_len_ge (u.emergencyContacts.map contactItem) ?_
    · simpa using h
    · intro it hit
      rw [List.mem_map] at hit
      obtain ⟨c, _, rfl⟩ := hit
      exact pairChars_len_ge c.name c.phone
  have hh : u.governmentHelplines.length
      ≤ (esChars (u.governmentHelplines.map helplineItem)).length := by
    have h := esChars_len_ge (u.governmentHelplines.map helplineItem) ?_
    · simpa using h
    · intro it hit
      rw [List.mem_map] at hit
      obtain ⟨c, _, rfl⟩ := hit
      exact pairChars_len_ge c.name c.number
  have hk1 := strLit_len_ge "n"
  have hk2 := strLit_len_ge "b"
  have hk3 := strLit_len_ge "e"
  have hk4 := strLit_len_ge "g"
  have hk5 := strLit_len_ge "t"
  have hv1 := strLit_len_ge u.fullName
  have hv2 := strLit_len_ge u.bloodGroup
  have hv5 := natChars_len_ge now
  simp only [userItems, msChars, arrChars, List.length_cons, List.length_append]
  omega

theorem jsonParse_user (now : Nat) (u : Profile) :
    jsonParse (String.mk (stringifyF 4 (userJson now u))) = some (userJson now u) := by
  have hlen := stringify_user_len now u
  rw [jsonParse]
  simp only []
  rw [stringifyF_user] at hlen ⊢
  rw [show (lbrace :: (msChars (userItems now u) ++ [rbrace]) : List Char)
      = lbrace :: (msChars (userItems now u) ++ rbrace :: []) from rfl]
  rw [parseF_val_userChars now u _ [] (by simp at hlen ⊢; omega)]
  rfl

/-! ## The decode-of-encode round-trip. -/

/-- The decoded image of a stored profile: every text field wrapped as the
JSON string `decodeUserToken` reconstructs. -/
def asDecoded (u : Profile) : DecodedUser :=
  ⟨some (.str u.fullName), some (.str u.bloodGroup),
   u.emergencyContacts.map fun c => ⟨some (.str c.name), some (.str c.phone)⟩,
   u.governmentHelplines.map fun h => ⟨some (.str h.name), some (.str h.number)⟩,
   u.createdAt⟩

theorem decContactElems_pairs (cs : List Contact) :
    decContactList.decContactElems
        (cs.map fun c => .obj [("n", .str c.name), ("p", .str c.phone)])
      = some (cs.map fun c => (⟨some (.str c.name), some (.str c.phone)⟩ : DecContact)) := by
  induction cs with
  | nil => rfl
  | cons c cs ih =>
    simp only [List.map_cons, decContactList.decContactElems, ih]
    simp [objGetLast]

theorem decHelplineElems_pairs (hs : List Helpline) :
    decHelplineList.decHelplineElems
        (hs.map fun h => .obj [("n", .str h.name), ("p", .str h.number)])
      = some (hs.map fun h => (⟨some (.str h.name), some (.str h.number)⟩ : DecHelpline)) := by
  induction hs with
  | nil => rfl
  | cons h hs ih =>
    simp only [List.map_cons, decHelplineList.decHelplineElems, ih]
    simp [objGetLast]

theorem decodeEval_userJson (now : Nat) (u : Profile) (h : now < isoModelMax) :
    decodeEval (userJson now u) = some (asDecoded { u with createdAt := isoOfMillis now }) := by
  have h1 : jsMember (userJson now u) "n" = some (some (.str u.fullName)) := by
    simp [userJson, jsMember, objGetLast]
  have h2 : jsMember (userJson now u) "b" = some (some (.str u.bloodGroup)) := by
    simp [userJson, jsMember, objGetLast]
  have h3 : jsMember (userJson now u) "e" = some (some (.arr
      (u.emergencyContacts.map fun c => .obj [("n", .str c.name), ("p", .str c.phone)]))) := by
    simp [userJson, jsMember, objGetLast]
  have h4 : jsMember (userJson now u) "g" = some (some (.arr
      (u.governmentHelplines.map fun hl => .obj [("n", .str hl.name), ("p", .str hl.number)]))) := by
    simp [userJson, jsMember, objGetLast]
  have h5 : jsMember (userJson now u) "t" = some (some (.num now)) := by
    simp [userJson, jsMember, objGetLast]
  have hiso : jsDateISO (some (.num now)) = some (isoOfMillis now) := by
    rw [jsDateISO, if_pos (by constructor <;> [omega; exact_mod_cast h])]
    simp
  rw [decodeEval, h1, h2, h3]
  simp only []
  rw [decodeE, decContactList]
  rw [decContactElems_pairs]
  simp only []
  rw [h4]
  simp only []
  rw [decodeG, decHelplineList]
  rw [decHelplineElems_pairs]
  simp only []
  rw [h5]
  simp only []
  rw [decodeT, hiso]
  simp [asDecoded]

theorem decode_encode (now : Nat) (u : Profile) (h : now < isoModelMax) :
    decodeUserToken (encodeUserToken now u)
      = some (asDecoded { u with createdAt := isoOfMillis now }) := by
  rw [decodeUserToken]
  have hb : b64DecodeBytes (encodeUserToken now u).data
      = utf8Encode (stringifyF 4 (userJson now u)) :=
    b64DecodeBytes_url _ (utf8Encode_lt _)
  rw [hb, show utf8DecodeBytes (utf8Encode (stringifyF 4 (userJson now u)))
      = stringifyF 4 (userJson now u) from utf8_roundtrip _]
  rw [jsonParse_user]
  exact decodeEval_userJson now u h

/-! ## Photo-store lemmas. -/

theorem photosGet_set (ps : PhotoStore) (k : String) (r : PhotoRec) :
    photosGet (photosSet ps k r) k = some r := by
  induction ps with
  | nil => simp [photosSet, photosGet]
  | cons p rest ih =>
    obtain ⟨k2, r2⟩ := p
    by_cases h : k = k2
    · simp [photosSet, photosGet, h]
    · simp [photosSet, photosGet, h, ih]

theorem photosSet_set (ps : PhotoStore) (k : String) (r1 r2 : PhotoRec) :
    photosSet (photosSet ps k r1) k r2 = photosSet ps k r2 := by
  induction ps with
  | nil => simp [photosSet]
  | cons p rest ih =>
    obtain ⟨k2, r⟩ := p
    by_cases h : k = k2
    · simp [photosSet, h]
    · simp [photosSet, h, ih]

theorem mark_get (now : Nat) (ps : PhotoStore) (vt : String) (r : PhotoRec)
    (h : photosGet ps vt = some r) :
    photosGet (markPhotoAsViewed now ps vt) vt
      = some { r with viewed := true, viewedAt := some (isoOfMillis now) } := by
  rw [markPhotoAsViewed, h]
  exact photosGet_set ps vt _

theorem mark_absent (now : Nat) (ps : PhotoStore) (vt : String)
    (h : photosGet ps vt = none) : markPhotoAsViewed now ps vt = ps := by
  rw [markPhotoAsViewed, h]

theorem mark_set_form (now : Nat) (ps : PhotoStore) (vt : String) (r : PhotoRec)
    (h : photosGet ps vt = some r) :
    markPhotoAsViewed now ps vt
      = photosSet ps vt { r with viewed := true, viewedAt := some (isoOfMillis now) } := by
  rw [markPhotoAsViewed, h]

theorem mark_mark (n1 n2 : Nat) (ps : PhotoStore) (vt : String) (r : PhotoRec)
    (h : photosGet ps vt = some r) :
    markPhotoAsViewed n2 (markPhotoAsViewed n1 ps vt) vt
      = photosSet ps vt { r with viewed := true, viewedAt := some (isoOfMillis n2) } := by
  rw [mark_set_form n1 ps vt r h]
  rw [mark_set_form n2 _ vt { r with viewed := true, viewedAt := some (isoOfMillis n1) }
    (photosGet_set ps vt _)]
  rw [photosSet_set]

/-! ## Public-view lemmas. -/

theorem pubContacts_map (cs : List Contact) :
    pubContacts (cs.map fun c => (⟨some (.str c.name), some (.str c.phone)⟩ : DecContact))
      = some (cs.map fun c => (⟨some (.str c.name), encodeBase64 c.phone⟩ : PubContact)) := by
  induction cs with
  | nil => rfl
  | cons c cs ih => simp [pubContacts, jsEncodeBase64, ih]

theorem viewOfDecoded_asDecoded (u : Profile) :
    viewOfDecoded (asDecoded u) = some (viewOfProfile u) := by
  simp [viewOfDecoded, asDecoded, pubContacts_map, viewOfProfile]

theorem viewOfProfile_createdAt (u : Profile) (x : String) :
    viewOfProfile { u with createdAt := x } = viewOfProfile u := rfl

theorem resolve_encode (now : Nat) (u : Profile) (h : now < isoModelMax) (store : UserStore) :
    resolvePublic store (encodeUserToken now u) = .ok (viewOfProfile u) := by
  rw [resolvePublic, decode_encode now u h]
  simp only []
  rw [viewOfDecoded_asDecoded]
  simp only []
  rw [viewOfProfile_createdAt]

/-! ## Registration-gate lemmas. -/

theorem register_obj (now1 now2 : Nat) (fs : List (String × Json)) :
    register now1 now2 (.obj fs)
      = (regGate now1 now2 (objGetLast fs "fullName") (objGetLast fs "bloodGroup")
          (objGetLast fs "emergencyContacts") (objGetLast fs "governmentHelplines")).getD
          .fault := rfl

theorem regGate_missing (now1 now2 : Nat) (F B E G : JsVal)
    (h : ¬ (truthy F ∧ truthy B)) :
    regGate now1 now2 F B E G = some (.err msgMissingFields) := by
  rw [regGate.eq_def, if_pos h]

theorem regGate_contacts_not_arr (now1 now2 : Nat) (F B E G : JsVal)
    (hT : truthy F ∧ truthy B) (hE : ∀ xs, E ≠ some (.arr xs)) :
    regGate now1 now2 F B E G = some (.err msgContactsRequired) := by
  rw [regGate.eq_def, if_neg (not_not_intro hT)]
  cases E with
  | none => rfl
  | some j =>
    cases j with
    | arr xs => exact absurd rfl (hE xs)
    | null => rfl
    | bool b => rfl
    | num n => rfl
    | str s => rfl
    | obj gs => rfl

theorem regGate_contacts_empty (now1 now2 : Nat) (F B G : JsVal)
    (hT : truthy F ∧ truthy B) :
    regGate now1 now2 F B (some (.arr [])) G = some (.err msgContactsRequired) := by
  rw [regGate.eq_def, if_neg (not_not_intro hT)]
  rfl

theorem regGate_helplines_not_arr (now1 now2 : Nat) (F B G : JsVal) (ec : List Json)
    (hT : truthy F ∧ truthy B) (hne : ec ≠ []) (hG : ∀ xs, G ≠ some (.arr xs)) :
    regGate now1 now2 F B (some (.arr ec)) G = some (.err msgHelplinesRequired) := by
  rw [regGate.eq_def, if_neg (not_not_intro hT)]
  simp only []
  rw [if_neg (fun h => hne (List.length_eq_zero.mp h))]

theorem regGate_helplines_empty (now1 now2 : Nat) (F B : JsVal) (ec : List Json)
    (hT : truthy F ∧ truthy B) (hne : ec ≠ []) :
    regGate now1 now2 F B (some (.arr ec)) (some (.arr []))
      = some (.err msgHelplinesRequired) := by
  rw [regGate.eq_def, if_neg (not_not_intro hT)]
  simp only []
  rw [if_neg (fun h => hne (List.length_eq_zero.mp h))]
  rfl

theorem regGate_checks (now1 now2 : Nat) (F B : JsVal) (ec gh : List Json)
    (hT : truthy F ∧ truthy B) (hne : ec ≠ []) (hgh : gh ≠ []) :
    regGate now1 now2 F B (some (.arr ec)) (some (.arr gh))
      = regChecks now1 now2 F B ec gh := by
  rw [regGate.eq_def, if_neg (not_not_intro hT)]
  simp only []
  rw [if_neg (fun h => hne (List.length_eq_zero.mp h))]
  rw [if_neg (fun h => hgh (List.length_eq_zero.mp h))]

theorem regChecks_badContact (now1 now2 : Nat) (F B : JsVal) (ec gh : List Json)
    (h : checkAll ec "phone" = some false) :
    regChecks now1 now2 F B ec gh = some (.err msgInvalidContact) := by
  rw [regChecks.eq_def, h]
  rfl

theorem regChecks_badHelpline (now1 now2 : Nat) (F B : JsVal) (ec gh : List Json)
    (hc : checkAll ec "phone" = some true) (hh : checkAll gh "number" = some false) :
    regChecks now1 now2 F B ec gh = some (.err msgInvalidHelpline) := by
  rw [regChecks.eq_def, hc, hh]
  rfl

theorem regChecks_ok (now1 now2 : Nat) (F B : JsVal) (ec gh : List Json)
    (hc : checkAll ec "phone" = some true) (hh : checkAll gh "number" = some true) :
    regChecks now1 now2 F B ec gh = regBuild now1 now2 F B ec gh := by
  rw [regChecks.eq_def, hc, hh]
  rfl

theorem regBuild_eq (now1 now2 : Nat) (F B : JsVal) (ec gh : List Json)
    (fn bg : String) (cs : List Contact) (hs : List Helpline)
    (hfn : jsTrim F = some fn) (hbg : jsTrimUpper B = some bg)
    (hcs : buildContacts ec = some cs) (hhs : buildHelplines gh = some hs) :
    regBuild now1 now2 F B ec gh
      = some (.ok (encodeUserToken now2 ⟨fn, bg, cs, hs, isoOfMillis now1⟩)
          ⟨fn, bg, cs, hs, isoOfMillis now1⟩) := by
  rw [regBuild.eq_def, hfn, hbg, hcs, hhs]
  rfl

/-! ## The claims. -/

/-- C1 (corrected). For every profile and encode-time clock reading in the
modelled ISO range, `decodeUserToken (encodeUserToken now u)` succeeds and
returns `fullName`, `bloodGroup`, `emergencyContacts` and
`governmentHelplines` unchanged and in order; but the decoded `createdAt` is
the ISO rendering of the ENCODER's own `Date.now()` reading (the `t` field),
not the `createdAt` of the input profile, so the original five-field
round-trip claim fails on `createdAt` (see the counterexample). -/
theorem C1_round_trip (now : Nat) (u : Profile) (h : now < isoModelMax) :
    ∃ d, decodeUserToken (encodeUserToken now u) = some d
      ∧ d.fullName = some (.str u.fullName)
      ∧ d.bloodGroup = some (.str u.bloodGroup)
      ∧ d.emergencyContacts
          = u.emergencyContacts.map (fun c => (⟨some (.str c.name), some (.str c.phone)⟩ : DecContact))
      ∧ d.governmentHelplines
          = u.governmentHelplines.map (fun g => (⟨some (.str g.name), some (.str g.number)⟩ : DecHelpline))
      ∧ d.createdAt = isoOfMillis now :=
  ⟨asDecoded { u with createdAt := isoOfMillis now }, decode_encode now u h,
    rfl, rfl, rfl, rfl, rfl⟩

/-- C1 counterexample: encoding a profile whose `createdAt` is
"2024-05-01T00:00:00.000Z" at clock reading 0 decodes with `createdAt`
"1970-01-01T00:00:00.000Z" — the codec is not a round-trip on `createdAt`. -/
theorem C1_counterexample :
    (decodeUserToken (encodeUserToken 0
        ⟨"Asha Rao", "B+", [⟨"Mom", "9876543210"⟩], [⟨"Emergency", "112"⟩],
          "2024-05-01T00:00:00.000Z"⟩)).map DecodedUser.createdAt
      = some "1970-01-01T00:00:00.000Z"
    ∧ ("1970-01-01T00:00:00.000Z" : String) ≠ "2024-05-01T00:00:00.000Z" :=
  ⟨rfl, by decide⟩

/-- C1 witness at clock 0 and a concrete profile. -/
theorem C1_round_trip_witness :
    (0 : Nat) < isoModelMax
    ∧ ∃ d, decodeUserToken (encodeUserToken 0
          ⟨"Asha Rao", "B+", [⟨"Mom", "9876543210"⟩], [⟨"Emergency", "112"⟩],
            "2024-05-01T00:00:00.000Z"⟩) = some d
        ∧ d.fullName = some (.str "Asha Rao")
        ∧ d.bloodGroup = some (.str "B+")
        ∧ d.emergencyContacts = [⟨some (.str "Mom"), some (.str "9876543210")⟩]
        ∧ d.governmentHelplines = [⟨some (.str "Emergency"), some (.str "112")⟩]
        ∧ d.createdAt = isoOfMillis 0 :=
  ⟨by decide, C1_round_trip 0
    ⟨"Asha Rao", "B+", [⟨"Mom", "9876543210"⟩], [⟨"Emergency", "112"⟩],
      "2024-05-01T00:00:00.000Z"⟩ (by decide)⟩

/-- C2 (corrected). `decodeUserToken` never faults: the spec's malformed
classes (empty string, arbitrary text, a legacy 32-char hex token, truncated
base64) all yield the typed failure `none`; but a syntactically valid token
whose JSON merely lacks the `n` subfield decodes SUCCESSFULLY to a profile
whose `fullName` is undefined — a partially-populated profile, which the
original claim ruled out (see the counterexample). -/
theorem C2_decode_robustness :
    decodeUserToken "" = none
    ∧ decodeUserToken "not a base64 token!!" = none
    ∧ decodeUserToken "0123456789abcdef0123456789abcdef" = none
    ∧ decodeUserToken "eyJuIjoiQSIs" = none
    ∧ (decodeUserToken "eyJiIjoiQSIsImUiOltdLCJnIjpbXSwidCI6MH0").map DecodedUser.fullName
        = some none :=
  ⟨rfl, rfl, rfl, rfl, rfl⟩

/-- C2 counterexample: the base64url of the JSON object missing the `n`
subfield decodes to `some` profile with undefined `fullName` and no failure. -/
theorem C2_counterexample :
    (decodeUserToken "eyJiIjoiQSIsImUiOltdLCJnIjpbXSwidCI6MH0").isSome = true
    ∧ (decodeUserToken "eyJiIjoiQSIsImUiOltdLCJnIjpbXSwidCI6MH0").map DecodedUser.fullName
        = some none
    ∧ (decodeUserToken "eyJiIjoiQSIsImUiOltdLCJnIjpbXSwidCI6MH0").map DecodedUser.bloodGroup
        = some (some (.str "A")) :=
  ⟨rfl, rfl, rfl⟩

/-- C3 (corrected). Resolution tries the decode first; on decode success the
view is built from the decoded profile, regardless of the store — but if that
view construction throws (a decoded contact whose phone is undefined), the
route faults (500) instead of returning a view; on decode failure it falls
back to the store; when both fail it is NotFound. The original unconditional
"decode success implies public view" claim is refuted by the counterexample. -/
theorem C3_dual_resolution (store : UserStore) (t : String) :
    (∀ u v, decodeUserToken t = some u → viewOfDecoded u = some v →
        resolvePublic store t = .ok v)
    ∧ (∀ u, decodeUserToken t = some u → viewOfDecoded u = none →
        resolvePublic store t = .fault)
    ∧ (∀ p, decodeUserToken t = none → store t = some p →
        resolvePublic store t = .ok (viewOfProfile p))
    ∧ (decodeUserToken t = none → store t = none → resolvePublic store t = .notFound) := by
  refine ⟨?_, ?_, ?_, ?_⟩
  · intro u v h1 h2
    rw [resolvePublic.eq_def, h1]
    simp only []
    rw [h2]
  · intro u h1 h2
    rw [resolvePublic.eq_def, h1]
    simp only []
    rw [h2]
  · intro p h1 h2
    rw [resolvePublic.eq_def, h1]
    simp only []
    rw [h2]
  · intro h1 h2
    rw [resolvePublic.eq_def, h1]
    simp only []
    rw [h2]

/-- C3 counterexample: a decodable token (its JSON `e` holds one empty
object, so the decoded contact phone is undefined) makes resolution fault
with a 500 — whatever the store holds — instead of a view or NotFound. -/
theorem C3_counterexample :
    (decodeUserToken "eyJuIjoiQSIsImIiOiJCIiwiZSI6W3t9XSwiZyI6W10sInQiOjB9").isSome = true
    ∧ resolvePublic (fun _ => some ⟨"S", "O+", [], [], "c"⟩)
        "eyJuIjoiQSIsImIiOiJCIiwiZSI6W3t9XSwiZyI6W10sInQiOjB9" = .fault
    ∧ resolvePublic (fun _ => none)
        "eyJuIjoiQSIsImIiOiJCIiwiZSI6W3t9XSwiZyI6W10sInQiOjB9" = .fault :=
  ⟨rfl, rfl, rfl⟩

/-- C3 witness: decode-only resolution, store fallback and NotFound at
concrete tokens and stores. -/
theorem C3_dual_resolution_witness :
    resolvePublic (fun _ => none) "eyJiIjoiQSIsImUiOltdLCJnIjpbXSwidCI6MH0"
      = .ok ⟨none, some (.str "A"), [], []⟩
    ∧ resolvePublic (fun _ => some ⟨"Asha Rao", "B+", [⟨"Mom", "9876543210"⟩],
        [⟨"Emergency", "112"⟩], "c"⟩) "legacy"
      = .ok (viewOfProfile ⟨"Asha Rao", "B+", [⟨"Mom", "9876543210"⟩],
        [⟨"Emergency", "112"⟩], "c"⟩)
    ∧ resolvePublic (fun _ => none) "legacy" = .notFound := by
  refine ⟨?_, ?_, ?_⟩
  · exact (C3_dual_resolution (fun _ => none) "eyJiIjoiQSIsImUiOltdLCJnIjpbXSwidCI6MH0").1
      ⟨none, some (.str "A"), [], [], "1970-01-01T00:00:00.000Z"⟩
      ⟨none, some (.str "A"), [], []⟩ rfl rfl
  · exact (C3_dual_resolution _ "legacy").2.2.1
      ⟨"Asha Rao", "B+", [⟨"Mom", "9876543210"⟩], [⟨"Emergency", "112"⟩], "c"⟩ rfl rfl
  · exact (C3_dual_resolution (fun _ => none) "legacy").2.2.2 rfl rfl

/-- C4 (corrected). Registration validates in the fixed order with the first
failure winning and pairwise-distinct error messages: missing/falsy
`fullName` or `bloodGroup`; then `emergencyContacts` absent, not an array or
empty; then `governmentHelplines` absent, not an array or empty; then an
invalid contact; then an invalid helpline; otherwise the normalized profile
is stored and a token issued. But the first gate tests JavaScript TRUTHINESS
of the raw values, not non-emptiness after trimming: a whitespace-only
`fullName` passes and is stored trimmed to the empty string (see the
counterexample). -/
theorem C4_validation_order (now1 now2 : Nat) (fs : List (String × Json)) :
    (¬ (truthy (objGetLast fs "fullName") ∧ truthy (objGetLast fs "bloodGroup")) →
        register now1 now2 (.obj fs) = .err msgMissingFields)
    ∧ (truthy (objGetLast fs "fullName") ∧ truthy (objGetLast fs "bloodGroup") →
        (∀ xs, objGetLast fs "emergencyContacts" ≠ some (.arr xs)) →
        register now1 now2 (.obj fs) = .err msgContactsRequired)
    ∧ (truthy (objGetLast fs "fullName") ∧ truthy (objGetLast fs "bloodGroup") →
        objGetLast fs "emergencyContacts" = some (.arr []) →
        register now1 now2 (.obj fs) = .err msgContactsRequired)
    ∧ (∀ ec, truthy (objGetLast fs "fullName") ∧ truthy (objGetLast fs "bloodGroup") →
        objGetLast fs "emergencyContacts" = some (.arr ec) → ec ≠ [] →
        (∀ xs, objGetLast fs "governmentHelplines" ≠ some (.arr xs)) →
        register now1 now2 (.obj fs) = .err msgHelplinesRequired)
    ∧ (∀ ec, truthy (objGetLast fs "fullName") ∧ truthy (objGetLast fs "bloodGroup") →
        objGetLast fs "emergencyContacts" = some (.arr ec) → ec ≠ [] →
        objGetLast fs "governmentHelplines" = some (.arr []) →
        register now1 now2 (.obj fs) = .err msgHelplinesRequired)
    ∧ (∀ ec gh, truthy (objGetLast fs "fullName") ∧ truthy (objGetLast fs "bloodGroup") →
        objGetLast fs "emergencyContacts" = some (.arr ec) → ec ≠ [] →
        objGetLast fs "governmentHelplines" = some (.arr gh) → gh ≠ [] →
        checkAll ec "phone" = some false →
        register now1 now2 (.obj fs) = .err msgInvalidContact)
    ∧ (∀ ec gh, truthy (objGetLast fs "fullName") ∧ truthy (objGetLast fs "bloodGroup") →
        objGetLast fs "emergencyContacts" = some (.arr ec) → ec ≠ [] →
        objGetLast fs "governmentHelplines" = some (.arr gh) → gh ≠ [] →
        checkAll ec "phone" = some true → checkAll gh "number" = some false →
        register now1 now2 (.obj fs) = .err msgInvalidHelpline)
    ∧ (∀ ec gh fn bg cs hs,
        truthy (objGetLast fs "fullName") ∧ truthy (objGetLast fs "bloodGroup") →
        objGetLast fs "emergencyContacts" = some (.arr ec) → ec ≠ [] →
        objGetLast fs "governmentHelplines" = some (.arr gh) → gh ≠ [] →
        checkAll ec "phone" = some true → checkAll gh "number" = some true →
        jsTrim (objGetLast fs "fullName") = some fn →
        jsTrimUpper (objGetLast fs "bloodGroup") = some bg →
        buildContacts ec = some cs → buildHelplines gh = some hs →
        register now1 now2 (.obj fs)
          = .ok (encodeUserToken now2 ⟨fn, bg, cs, hs, isoOfMillis now1⟩)
              ⟨fn, bg, cs, hs, isoOfMillis now1⟩)
    ∧ [msgMissingFields, msgContactsRequired, msgHelplinesRequired,
        msgInvalidContact, msgInvalidHelpline].Pairwise (· ≠ ·) := by
  refine ⟨?_, ?_, ?_, ?_, ?_, ?_, ?_, ?_, by decide⟩
  · intro hT
    rw [register_obj, regGate_missing now1 now2 _ _ _ _ hT]
    rfl
  · intro hT hE
    rw [register_obj, regGate_contacts_not_arr now1 now2 _ _ _ _ hT hE]
    rfl
  · intro hT hE
    rw [register_obj, hE, regGate_contacts_empty now1 now2 _ _ _ hT]
    rfl
  · intro ec hT hE hne hG
    rw [register_obj, hE, regGate_helplines_not_arr now1 now2 _ _ _ ec hT hne hG]
    rfl
  · intro ec hT hE hne hG
    rw [register_obj, hE, hG, regGate_helplines_empty now1 now2 _ _ ec hT hne]
    rfl
  · intro ec gh hT hE hne hG hgh hc
    rw [register_obj, hE, hG, regGate_checks now1 now2 _ _ ec gh hT hne hgh,
      regChecks_badContact now1 now2 _ _ ec gh hc]
    rfl
  · intro ec gh hT hE hne hG hgh hc hh
    rw [register_obj, hE, hG, regGate_checks now1 now2 _ _ ec gh hT hne hgh,
      regChecks_badHelpline now1 now2 _ _ ec gh hc hh]
    rfl
  · intro ec gh fn bg cs hs hT hE hne hG hgh hc hh hfn hbg hcs hhs
    rw [register_obj, hE, hG, regGate_checks now1 now2 _ _ ec gh hT hne hgh,
      regChecks_ok now1 now2 _ _ ec gh hc hh,
      regBuild_eq now1 now2 _ _ ec gh fn bg cs hs hfn hbg hcs hhs]
    rfl

/-- C4 counterexample: a registration whose `fullName` is a single blank is
ACCEPTED (no error), and the stored profile's `fullName` is the empty string
— "non-empty after trimming" is not enforced. -/
theorem C4_counterexample :
    (regProfile (register 0 0 (.obj [("fullName", .str " "), ("bloodGroup", .str "B+"),
        ("emergencyContacts", .arr [.obj [("name", .str "Mom"), ("phone", .str "9876543210")]]),
        ("governmentHelplines", .arr [.obj [("name", .str "Emergency"),
          ("number", .str "112")]])]))).map Profile.fullName
      = some ""
    ∧ regErrMsg (register 0 0 (.obj [("fullName", .str " "), ("bloodGroup", .str "B+"),
        ("emergencyContacts", .arr [.obj [("name", .str "Mom"), ("phone", .str "9876543210")]]),
        ("governmentHelplines", .arr [.obj [("name", .str "Emergency"),
          ("number", .str "112")]])]))
      = none :=
  ⟨rfl, rfl⟩

/-- C4 witness: the four distinct rejections at concrete bodies. -/
theorem C4_validation_order_witness :
    register 0 0 (.obj []) = .err msgMissingFields
    ∧ register 0 0 (.obj [("fullName", .str "A"), ("bloodGroup", .str "B+")])
        = .err msgContactsRequired
    ∧ register 0 0 (.obj [("fullName", .str "A"), ("bloodGroup", .str "B+"),
        ("emergencyContacts", .arr [.obj [("name", .str "M"), ("phone", .str "1")]])])
        = .err msgHelplinesRequired
    ∧ register 0 0 (.obj [("fullName", .str "A"), ("bloodGroup", .str "B+"),
        ("emergencyContacts", .arr [.obj [("name", .str "M")]]),
        ("governmentHelplines", .arr [.obj [("name", .str "E"), ("number", .str "112")]])])
        = .err msgInvalidContact := by
  refine ⟨?_, ?_, ?_, ?_⟩
  · exact (C4_validation_order 0 0 []).1 (by decide)
  · exact (C4_validation_order 0 0 [("fullName", .str "A"), ("bloodGroup", .str "B+")]).2.1
      (by decide) (fun xs h => Option.noConfusion h)
  · exact (C4_validation_order 0 0 [("fullName", .str "A"), ("bloodGroup", .str "B+"),
      ("emergencyContacts", .arr [.obj [("name", .str "M"), ("phone", .str "1")]])]).2.2.2.1
      [.obj [("name", .str "M"), ("phone", .str "1")]]
      (by decide) rfl (List.cons_ne_nil _ _) (fun xs h => Option.noConfusion h)
  · exact (C4_validation_order 0 0 [("fullName", .str "A"), ("bloodGroup", .str "B+"),
      ("emergencyContacts", .arr [.obj [("name", .str "M")]]),
      ("governmentHelplines", .arr [.obj [("name", .str "E"),
        ("number", .str "112")]])]).2.2.2.2.2.1
      [.obj [("name", .str "M")]] [.obj [("name", .str "E"), ("number", .str "112")]]
      (by decide) rfl (List.cons_ne_nil _ _) rfl (List.cons_ne_nil _ _) rfl

/-- C5 (confirmed). Resolving any token freshly produced by the encoder
yields the public view: `fullName` and `bloodGroup` as stored, helplines
verbatim, and every contact with its name unchanged and its phone replaced by
`phoneEncoded`, the standard base64 of the phone string; in particular the
spec's Asha Rao register-and-resolve scenario produces bloodGroup "B+" and
phoneEncoded base64("9876543210") = "OTg3NjU0MzIxMA==". -/
theorem C5_public_view (now : Nat) (u : Profile) (store : UserStore)
    (h : now < isoModelMax) :
    resolvePublic store (encodeUserToken now u) = .ok (viewOfProfile u)
    ∧ viewOfProfile u = ⟨some (.str u.fullName), some (.str u.bloodGroup),
        u.emergencyContacts.map (fun c => ⟨some (.str c.name), encodeBase64 c.phone⟩),
        u.governmentHelplines.map (fun g => ⟨some (.str g.name), some (.str g.number)⟩)⟩
    ∧ resolveAfterRegister 0 0 (.obj [("fullName", .str "Asha Rao"),
        ("bloodGroup", .str "b+"),
        ("emergencyContacts", .arr [.obj [("name", .str "Mom"),
          ("phone", .str "98765 43210")]]),
        ("governmentHelplines", .arr [.obj [("name", .str "Emergency"),
          ("number", .str "112")]])]) (fun _ => none)
      = .ok ⟨some (.str "Asha Rao"), some (.str "B+"),
          [⟨some (.str "Mom"), "OTg3NjU0MzIxMA=="⟩],
          [⟨some (.str "Emergency"), some (.str "112")⟩]⟩
    ∧ encodeBase64 "9876543210" = "OTg3NjU0MzIxMA==" :=
  ⟨resolve_encode now u h store, rfl, rfl, rfl⟩

/-- C5 witness at clock 0 and a concrete stored-free deployment. -/
theorem C5_public_view_witness :
    (0 : Nat) < isoModelMax
    ∧ resolvePublic (fun _ => none) (encodeUserToken 0
        ⟨"Asha Rao", "B+", [⟨"Mom", "9876543210"⟩], [⟨"Emergency", "112"⟩], "c"⟩)
      = .ok (viewOfProfile
        ⟨"Asha Rao", "B+", [⟨"Mom", "9876543210"⟩], [⟨"Emergency", "112"⟩], "c"⟩) :=
  ⟨by decide, (C5_public_view 0
    ⟨"Asha Rao", "B+", [⟨"Mom", "9876543210"⟩], [⟨"Emergency", "112"⟩], "c"⟩
    (fun _ => none) (by decide)).1⟩

/-- C6 (corrected). `markPhotoAsViewed` twice at the SAME clock reading
equals once, and a call on an absent viewToken changes nothing; but the
source unconditionally re-assigns `viewedAt`, so a second call at clock
reading `n2` overwrites `viewedAt` with the later time (see the
counterexample) — the double call is NOT observably a no-op. -/
theorem C6_mark_idempotent (now n2 : Nat) (ps : PhotoStore) (vt : String) (r : PhotoRec) :
    (markPhotoAsViewed now (markPhotoAsViewed now ps vt) vt = markPhotoAsViewed now ps vt)
    ∧ (photosGet ps vt = none → markPhotoAsViewed now ps vt = ps)
    ∧ (photosGet ps vt = some r →
        photosGet (markPhotoAsViewed n2 (markPhotoAsViewed now ps vt) vt) vt
          = some { r with viewed := true, viewedAt := some (isoOfMillis n2) }) := by
  refine ⟨?_, mark_absent now ps vt, ?_⟩
  · cases h : photosGet ps vt with
    | none => rw [mark_absent now ps vt h, mark_absent now ps vt h]
    | some r0 => rw [mark_mark now now ps vt r0 h, mark_set_form now ps vt r0 h]
  · intro h
    rw [mark_mark now n2 ps vt r h]
    exact photosGet_set ps vt _

/-- C6 counterexample: marking at clock 1 sets `viewedAt` to
"1970-01-01T00:00:00.001Z"; marking again at clock 2000 overwrites it to
"1970-01-01T00:00:02.000Z" — the second call is not a no-op. -/
theorem C6_counterexample :
    (photosGet (markPhotoAsViewed 1
        [("v1", ⟨none, none, 0, none, none, "u", "t", "v1", false, "c", none⟩)] "v1")
        "v1").map PhotoRec.viewedAt = some (some "1970-01-01T00:00:00.001Z")
    ∧ (photosGet (markPhotoAsViewed 2000 (markPhotoAsViewed 1
        [("v1", ⟨none, none, 0, none, none, "u", "t", "v1", false, "c", none⟩)] "v1") "v1")
        "v1").map PhotoRec.viewedAt = some (some "1970-01-01T00:00:02.000Z")
    ∧ ("1970-01-01T00:00:00.001Z" : String) ≠ "1970-01-01T00:00:02.000Z" :=
  ⟨rfl, rfl, by decide⟩

/-- C6 witness at a concrete store and viewToken. -/
theorem C6_mark_idempotent_witness :
    (markPhotoAsViewed 5 (markPhotoAsViewed 5
        [("v1", ⟨none, none, 0, none, none, "u", "t", "v1", false, "c", none⟩)] "v1") "v1"
      = markPhotoAsViewed 5
        [("v1", ⟨none, none, 0, none, none, "u", "t", "v1", false, "c", none⟩)] "v1")
    ∧ markPhotoAsViewed 5 [] "v1" = []
    ∧ photosGet (markPhotoAsViewed 9 (markPhotoAsViewed 5
        [("v1", ⟨none, none, 0, none, none, "u", "t", "v1", false, "c", none⟩)] "v1") "v1")
        "v1"
      = some ⟨none, none, 0, none, none, "u", "t", "v1", true, "c",
          some (isoOfMillis 9)⟩ :=
  ⟨(C6_mark_idempotent 5 9
      [("v1", ⟨none, none, 0, none, none, "u", "t", "v1", false, "c", none⟩)] "v1"
      ⟨none, none, 0, none, none, "u", "t", "v1", false, "c", none⟩).1,
   (C6_mark_idempotent 5 9 [] "v1"
      ⟨none, none, 0, none, none, "u", "t", "v1", false, "c", none⟩).2.1 rfl,
   (C6_mark_idempotent 5 9
      [("v1", ⟨none, none, 0, none, none, "u", "t", "v1", false, "c", none⟩)] "v1"
      ⟨none, none, 0, none, none, "u", "t", "v1", false, "c", none⟩).2.2 rfl⟩

/-- C7 (confirmed). A fresh upload stores its record with `viewed = false`;
the view route serves the page exactly once: an unviewed record is served and
marked viewed, a viewed record answers gone (410) with the store unchanged,
and in particular the access after a first successful view is gone and leaves
the store unchanged, so the content is never served again. -/
theorem C7_one_time_photo (now0 now1 now2 : Nat) (photos ps : PhotoStore)
    (token vt : String) (pi : PhotoInfo) (r : PhotoRec) :
    ((photosGet (logPhotoUpload now0 photos token pi) pi.viewToken).map PhotoRec.viewed
        = some false)
    ∧ (photosGet ps vt = some r → r.viewed = false →
        viewPhoto now1 ps vt = (.page, markPhotoAsViewed now1 ps vt))
    ∧ (photosGet ps vt = some r → r.viewed = true → viewPhoto now1 ps vt = (.gone, ps))
    ∧ (photosGet ps vt = some r → r.viewed = false →
        viewPhoto now2 (viewPhoto now1 ps vt).2 vt = (.gone, (viewPhoto now1 ps vt).2)) := by
  have serve : ∀ n : Nat, photosGet ps vt = some r → r.viewed = false →
      viewPhoto n ps vt = (.page, markPhotoAsViewed n ps vt) := by
    intro n h hv
    rw [viewPhoto.eq_def, h]
    simp only []
    rw [hv]
    simp
  refine ⟨?_, serve now1, ?_, ?_⟩
  · rw [logPhotoUpload, photosGet_set]
    rfl
  · intro h hv
    rw [viewPhoto.eq_def, h]
    simp only []
    rw [hv]
    simp
  · intro h hv
    rw [serve now1 h hv]
    simp only []
    rw [viewPhoto.eq_def, mark_get now1 ps vt r h]
    simp

/-- C7 witness: a concrete upload, first view and blocked second view. -/
theorem C7_one_time_photo_witness :
    ((photosGet (logPhotoUpload 0 [] "tok" ⟨none, none, 7, none, none, "up", "v1"⟩)
        "v1").map PhotoRec.viewed = some false)
    ∧ viewPhoto 1 (logPhotoUpload 0 [] "tok" ⟨none, none, 7, none, none, "up", "v1"⟩) "v1"
      = (.page, markPhotoAsViewed 1
          (logPhotoUpload 0 [] "tok" ⟨none, none, 7, none, none, "up", "v1"⟩) "v1")
    ∧ viewPhoto 2 (viewPhoto 1
        (logPhotoUpload 0 [] "tok" ⟨none, none, 7, none, none, "up", "v1"⟩) "v1").2 "v1"
      = (.gone, (viewPhoto 1
          (logPhotoUpload 0 [] "tok" ⟨none, none, 7, none, none, "up", "v1"⟩) "v1").2) :=
  ⟨(C7_one_time_photo 0 1 2 [] [] "tok" "v1" ⟨none, none, 7, none, none, "up", "v1"⟩
      ⟨none, none, 7, none, none, "up", "tok", "v1", false, isoOfMillis 0, none⟩).1,
   (C7_one_time_photo 0 1 2 []
      (logPhotoUpload 0 [] "tok" ⟨none, none, 7, none, none, "up", "v1"⟩) "tok" "v1"
      ⟨none, none, 7, none, none, "up", "v1"⟩
      ⟨none, none, 7, none, none, "up", "tok", "v1", false, isoOfMillis 0, none⟩).2.1 rfl rfl,
   (C7_one_time_photo 0 1 2 []
      (logPhotoUpload 0 [] "tok" ⟨none, none, 7, none, none, "up", "v1"⟩) "tok" "v1"
      ⟨none, none, 7, none, none, "up", "v1"⟩
      ⟨none, none, 7, none, none, "up", "tok", "v1", false, isoOfMillis 0, none⟩).2.2.2 rfl rfl⟩

/-- C8 (confirmed). The upload route validates its owner token solely by
Auxiliary Store lookup and never decodes: any encoder-produced token with no
mirrored store record makes `uploadPhoto` answer user-not-found with the
photo store unchanged, although resolving the very same token succeeds
through decode alone. -/
theorem C8_upload_store_only (store : UserStore) (photos : PhotoStore) (now nowE : Nat)
    (vt : String) (file : Option UploadFile) (pn ts : Option String) (u : Profile)
    (h : nowE < isoModelMax) (habs : store (encodeUserToken nowE u) = none) :
    uploadPhoto store photos now vt (encodeUserToken nowE u) file pn ts
      = (.userNotFound, photos)
    ∧ resolvePublic store (encodeUserToken nowE u) = .ok (viewOfProfile u) := by
  refine ⟨?_, resolve_encode nowE u h store⟩
  rw [uploadPhoto.eq_def, habs]

/-- C8 witness: an empty store, a concrete file and a concrete profile. -/
theorem C8_upload_store_only_witness :
    uploadPhoto (fun _ => none) [] 1 "v1" (encodeUserToken 0
        ⟨"Asha Rao", "B+", [⟨"Mom", "9876543210"⟩], [⟨"Emergency", "112"⟩], "c"⟩)
        (some ⟨some "f.jpg", some "o.jpg", 10⟩) none none
      = (.userNotFound, [])
    ∧ resolvePublic (fun _ => none) (encodeUserToken 0
        ⟨"Asha Rao", "B+", [⟨"Mom", "9876543210"⟩], [⟨"Emergency", "112"⟩], "c"⟩)
      = .ok (viewOfProfile
        ⟨"Asha Rao", "B+", [⟨"Mom", "9876543210"⟩], [⟨"Emergency", "112"⟩], "c"⟩) :=
  C8_upload_store_only (fun _ => none) [] 1 0 "v1"
    (some ⟨some "f.jpg", some "o.jpg", 10⟩) none none
    ⟨"Asha Rao", "B+", [⟨"Mom", "9876543210"⟩], [⟨"Emergency", "112"⟩], "c"⟩
    (by decide) rfl

/-- C9 (confirmed). Every encoder-produced token is URL-safe text: each of
its characters belongs to the URL-safe base64 alphabet (A-Z, a-z, 0-9, `-`,
`_`), it carries no `=` padding, and it is exactly the padding-free URL-safe
base64 of the UTF-8 bytes of the JSON object with keys n, b, e, g, t — whose
parse recovers that object. -/
theorem C9_token_urlsafe (now : Nat) (u : Profile) :
    (∀ c ∈ (encodeUserToken now u).data, c ∈ urlAlphabet)
    ∧ '=' ∉ (encodeUserToken now u).data
    ∧ encodeUserToken now u = b64UrlOfBytes (utf8Encode (stringifyF 4 (userJson now u)))
    ∧ jsonParse (String.mk (utf8DecodeBytes (b64DecodeBytes (encodeUserToken now u).data)))
        = some (userJson now u) := by
  have hmem : ∀ c ∈ (encodeUserToken now u).data, c ∈ urlAlphabet := by
    intro c hc
    have hc2 : c ∈ (b64Groups (utf8Encode (stringifyF 4 (userJson now u)))).map
        (fun v => urlAlphabet.getD v 'A') := hc
    obtain ⟨v, hv, rfl⟩ := List.mem_map.mp hc2
    have hlt : v < 64 := b64Groups_lt _ (utf8Encode_lt _) v hv
    have hlen : v < urlAlphabet.length := by
      rw [show urlAlphabet.length = 64 from rfl]
      exact hlt
    rw [List.getD_eq_getElem urlAlphabet 'A' hlen]
    exact List.getElem_mem hlen
  refine ⟨hmem, ?_, rfl, ?_⟩
  · intro heq
    have hin := hmem '=' heq
    revert hin
    decide
  · have hb : b64DecodeBytes (encodeUserToken now u).data
        = utf8Encode (stringifyF 4 (userJson now u)) :=
      b64DecodeBytes_url _ (utf8Encode_lt _)
    rw [hb, show utf8DecodeBytes (utf8Encode (stringifyF 4 (userJson now u)))
        = stringifyF 4 (userJson now u) from utf8_roundtrip _, jsonParse_user]

/-- C9 witness: membership instantiated at the first character of a concrete
token. -/
theorem C9_token_urlsafe_witness :
    'e' ∈ (encodeUserToken 0
        ⟨"Asha Rao", "B+", [⟨"Mom", "9876543210"⟩], [⟨"Emergency", "112"⟩], "c"⟩).data
    ∧ 'e' ∈ urlAlphabet :=
  ⟨by decide, (C9_token_urlsafe 0
      ⟨"Asha Rao", "B+", [⟨"Mom", "9876543210"⟩], [⟨"Emergency", "112"⟩], "c"⟩).1
    'e' (by decide)⟩

/-- C10 (corrected). The accident log is append-only: one append preserves
every existing entry and its position, and adds exactly one entry at the end;
the new entry's id is the `Date.now()` reading at append time, so ids are
non-decreasing when the clock is — but two appends within the same
millisecond receive EQUAL ids (see the counterexample), so ids are neither
unique nor strictly greater than all earlier ids. -/
theorem C10_accident_log (now : Nat) (logs : List LogEntry) (token : String)
    (un la lo mu : JsVal) (ra : String) :
    (∀ i, i < logs.length →
        (logAccidentLocation now logs token un la lo mu ra)[i]? = logs[i]?)
    ∧ (logAccidentLocation now logs token un la lo mu ra).length = logs.length + 1
    ∧ (logAccidentLocation now logs token un la lo mu ra)[logs.length]?
        = some ⟨now, token, un, la, lo, mu, ra⟩
    ∧ ((logs.map LogEntry.id).Pairwise (· ≤ ·) → (∀ e ∈ logs, e.id ≤ now) →
        ((logAccidentLocation now logs token un la lo mu ra).map LogEntry.id).Pairwise
          (· ≤ ·)) := by
  refine ⟨?_, ?_, ?_, ?_⟩
  · intro i hi
    rw [logAccidentLocation, List.getElem?_append_left hi]
  · simp [logAccidentLocation]
  · rw [logAccidentLocation, List.getElem?_append_right (le_refl _)]
    simp
  · intro hp hle
    rw [logAccidentLocation, List.map_append, List.pairwise_append]
    refine ⟨hp, by simp, ?_⟩
    intro a ha b hb
    simp only [List.map_cons, List.map_nil, List.mem_singleton] at hb
    subst hb
    obtain ⟨e, he, rfl⟩ := List.mem_map.mp ha
    exact hle e he

/-- C10 counterexample: two appends at the same clock reading 5 yield ids
[5, 5] — equal, not strictly increasing, not unique. -/
theorem C10_counterexample :
    ((logAccidentLocation 5 (logAccidentLocation 5 [] "t1" none none none none "r1")
        "t2" none none none none "r2").map LogEntry.id = [5, 5])
    ∧ ¬ ((logAccidentLocation 5 (logAccidentLocation 5 [] "t1" none none none none "r1")
        "t2" none none none none "r2").map LogEntry.id).Pairwise (· < ·) := by
  refine ⟨rfl, ?_⟩
  intro hp
  rw [show (logAccidentLocation 5 (logAccidentLocation 5 [] "t1" none none none none "r1")
      "t2" none none none none "r2").map LogEntry.id = [5, 5] from rfl] at hp
  exact absurd (List.rel_of_pairwise_cons hp (List.mem_singleton.mpr rfl)) (by decide)

/-- C10 witness: one append onto a one-entry log at a later clock reading. -/
theorem C10_accident_log_witness :
    ((logAccidentLocation 9 [⟨5, "t1", none, none, none, none, "r1"⟩] "t2"
        none none none none "r2").map LogEntry.id).Pairwise (· ≤ ·)
    ∧ (logAccidentLocation 9 [⟨5, "t1", none, none, none, none, "r1"⟩] "t2"
        none none none none "r2")[0]?
      = some ⟨5, "t1", none, none, none, none, "r1"⟩ :=
  ⟨(C10_accident_log 9 [⟨5, "t1", none, none, none, none, "r1"⟩] "t2"
      none none none none "r2").2.2.2 (by simp) (by
        intro e he
        simp only [List.mem_singleton] at he
        subst he
        decide),
   (C10_accident_log 9 [⟨5, "t1", none, none, none, none, "r1"⟩] "t2"
      none none none none "r2").1 0 (by decide)⟩

end JQR
